import Mathlib

/-!
# Spray conversion (engine/client/cl_spray.c) and the Ogg memory stream
(engine/common/soundlib/snd_ogg.c)

A shallow embedding of the spray conversion code of the engine and of the
memory-stream callbacks of its Ogg loader, and the properties their
specification states about them.

Conventions of the embedding

* C `int` values are `Int`; a product the code computes in `int` is reduced
  with `wrap32` (two's complement wrap-around).
* C `float` values are IEEE 754 binary32 numbers, represented exactly as
  `mant * 2 ^ exp`; every float operation is the exact operation followed by
  rounding to 24 significant bits, ties to even.
* byte buffers are `List Nat`; a nullable pointer is an `Option`.
-/

namespace Spray

/-! ## C arithmetic -/

/-- Two's complement reduction of a mathematical integer to a 32-bit C int. -/
def wrap32 (x : Int) : Int := (x + 2147483648) % 4294967296 - 2147483648

/-- Number of binary digits of n, by halving; the first argument bounds the
number of halvings. -/
def bitLenAux : Nat → Nat → Nat
  | 0, _ => 0
  | fuel + 1, n => if n = 0 then 0 else bitLenAux fuel (n / 2) + 1

/-- Number of binary digits of n (0 for 0). -/
def bitLen (n : Nat) : Nat := bitLenAux n n

/-- A finite binary32 value, mant * 2 ^ exp. The exponent is not clamped: the
values the fitter computes from positive 32-bit ints lie between 2^-31 and
2^62, inside the normal range of binary32, where neither overflow nor gradual
underflow occurs. -/
structure F32 where
  mant : Int
  exp : Int
deriving DecidableEq, Repr

/-- Quotient n / d rounded to the nearest integer, ties to even. -/
def roundNearestEven (n d : Nat) : Nat :=
  let q := n / d
  let r := n % d
  if 2 * r < d then q else if d < 2 * r then q + 1 else q + q % 2

/-- The integer nearest (ties to even) to (n / d) / 2 ^ e. -/
def roundAt (n d : Nat) (e : Int) : Nat :=
  if 0 ≤ e then roundNearestEven n (d * 2 ^ e.toNat)
  else roundNearestEven (n * 2 ^ (-e).toNat) d

/-- The integer part of (n / d) / 2 ^ e. -/
def floorAt (n d : Nat) (e : Int) : Nat :=
  if 0 ≤ e then n / (d * 2 ^ e.toNat) else (n * 2 ^ (-e).toNat) / d

/-- Rounding of the positive rational n / d to 24 significant bits: the
exponent e is the one with 2^23 ≤ (n / d) / 2^e < 2^24. -/
def roundPos (n d : Nat) : F32 :=
  let e0 : Int := (bitLen n : Int) - (bitLen d : Int) - 24
  let e : Int := if floorAt n d e0 < 2 ^ 24 then e0 else e0 + 1
  ⟨(roundAt n d e : Int), e⟩

/-- Rounding of (n / d) * 2 ^ e to binary32. A zero denominator (a float
division by zero, which the fitter only meets for a zero height) gives 0 here. -/
def roundF32 (n d : Int) (e : Int) : F32 :=
  if n = 0 ∨ d = 0 then ⟨0, 0⟩
  else
    let r := roundPos n.natAbs d.natAbs
    ⟨Int.sign n * Int.sign d * r.mant, r.exp + e⟩

/-- The conversion (float)x of a C int. -/
def F32.ofInt (x : Int) : F32 := roundF32 x 1 0

/-- Float multiplication. -/
def F32.mul (a b : F32) : F32 := roundF32 (a.mant * b.mant) 1 (a.exp + b.exp)

/-- Float division. -/
def F32.div (a b : F32) : F32 := roundF32 a.mant b.mant (a.exp - b.exp)

/-- Truncation toward zero of a float to a mathematical integer. -/
def F32.trunc (a : F32) : Int :=
  if 0 ≤ a.exp then a.mant * 2 ^ a.exp.toNat else a.mant.tdiv (2 ^ (-a.exp).toNat)

/-- The conversion (int)x of a C float. C leaves the result undefined when the
truncated value does not fit an int; the value taken here is the one x86
produces (INT_MIN). The fitter reaches that case only for widths within 2^9
of INT_MAX. -/
def f2i (a : F32) : Int :=
  let t := a.trunc
  if -2147483648 ≤ t ∧ t ≤ 2147483647 then t else -2147483648

/-! ## Constants of cl_spray.c -/

/-- Area cap, cl_spray.c line 20. -/
def SPRAY_MAX_SURFACE : Int := 12228

/-- Number of palette entries, cl_spray.c line 21. -/
def SPRAY_PALETTE_SIZE : Nat := 256

/-- Size of the RGB palette in bytes, cl_spray.c line 22. -/
def SPRAY_PALETTE_BYTES : Nat := SPRAY_PALETTE_SIZE * 3

/-- Largest alpha value that marks a pixel transparent, cl_spray.c line 23. -/
def SPRAY_ALPHA_THRESHOLD : Nat := 254

/-- Name of the written container, cl_spray.c line 24. -/
def SPRAY_FILENAME : String := "tempdecal.wad"

/-! ## CL_AdjustSprayDimensions -/

/-- The candidate width of line 33, w = ((int)( h * aspect ) / 16 ) * 16. -/
def candidateWidth (aspect : F32) (h : Int) : Int :=
  ((f2i (F32.mul (F32.ofInt h) aspect)).tdiv 16) * 16

/-- The loop of lines 31-43, by recursion on the number k of candidate heights
left: the candidate examined is h = 16 * k, the next one is h - 16, and the
loop ends below h = 16. Lines 45-46 are the fallback. -/
def fitLoop (width : Int) (aspect : F32) : Nat → Int × Int
  | 0 => (16, 16)
  | k + 1 =>
    let h : Int := 16 * ((k : Int) + 1)
    let w := candidateWidth aspect h
    if w < 16 ∨ w > width then fitLoop width aspect k
    else if wrap32 (w * h) < SPRAY_MAX_SURFACE then (w, h)
    else fitLoop width aspect k

/-- The function CL_AdjustSprayDimensions, lines 27-47: the pair returned
is the final (*width, *height). The first candidate height is
(height / 16) * 16, that is 16 * k for k = height / 16. -/
def CL_AdjustSprayDimensions (width height : Int) : Int × Int :=
  fitLoop width (F32.div (F32.ofInt width) (F32.ofInt height)) (height.tdiv 16).toNat

/-- The candidate width the code computes for the source (w, h) at height H. -/
def candidate (w h H : Int) : Int :=
  candidateWidth (F32.div (F32.ofInt w) (F32.ofInt h)) H

/-- The tests of lines 34 and 37 on a candidate width c at height H, for the
source width w: 16 ≤ c ≤ w and c * H < 12228, the product in C int
arithmetic. -/
def passes (w c H : Int) : Prop :=
  16 ≤ c ∧ c ≤ w ∧ wrap32 (c * H) < SPRAY_MAX_SURFACE

instance (w c H : Int) : Decidable (passes w c H) := by
  unfold passes; infer_instance

/-- The height H qualifies for the source (w, h): its candidate width passes
the tests of the loop. -/
def qualifies (w h H : Int) : Prop := passes w (candidate w h H) H

instance (w h H : Int) : Decidable (qualifies w h H) := by
  unfold qualifies; infer_instance

/-- The candidate width as the specification writes it,
c(H) = floor(H * (w / h) / 16) * 16, in exact arithmetic: for integers and a
positive h the floor is the integer quotient of H * w by 16 * h (theorem
specCandidate_eq_floor). It is the value line 33 aims at, to be compared with
candidate, the value line 33 computes in binary32. -/
def specCandidate (w h H : Int) : Int := (H * w / (16 * h)) * 16

/-- The height H qualifies as the specification writes it: 16 ≤ c(H) ≤ w and
c(H) * H < 12228, with the exact candidate width and the mathematical
product. -/
def specQualifies (w h H : Int) : Prop :=
  16 ≤ specCandidate w h H ∧ specCandidate w h H ≤ w ∧
    specCandidate w h H * H < SPRAY_MAX_SURFACE

instance (w h H : Int) : Decidable (specQualifies w h H) := by
  unfold specQualifies; infer_instance

/-! ## Image records and collaborators -/

/-- Modelled from the spec: the pixel formats of a RasterImage. The enumeration
pixformat_t is declared in imagelib.h, which is not among the sources; the
code names PF_RGBA_32 (TrueColorAlpha, 4 bytes per pixel), PF_INDEXED_24
(Indexed8-RGB, 768-byte palette) and PF_INDEXED_32 (Indexed8-RGBA, 1024-byte
palette) and treats every other format as 3 bytes per pixel (TrueColor). -/
inductive pixformat_t where
  | PF_RGBA_32
  | PF_RGB_24
  | PF_INDEXED_24
  | PF_INDEXED_32
deriving DecidableEq, Repr

/-- Modelled from the spec: the image record rgbdata_t of imagelib.h (not among
the sources), with the fields cl_spray.c reads or writes. It is both the
RasterImage and the IndexedImage of the data model. A NULL palette or buffer is
none; size is kept as the integer the code computes, a byte count where it is
used. -/
structure rgbdata_t where
  width : Int
  height : Int
  type : pixformat_t
  flags : Nat
  palette : Option (List Nat)
  buffer : Option (List Nat)
  size : Int
deriving DecidableEq, Repr

/-- The collaborators cl_spray.c calls and the flag bit it takes from
imagelib.h, as parameters: the decoder (file name, whether IL_KEEP_8BIT is
forced during the call; NULL is none), the resampler (source buffer, source
width and height, target width and height, format; NULL is none), the
quantizer (the record it is given, the record as it leaves it), the writer,
and the bit IMAGE_GRADIENT_DECAL. -/
structure Externals where
  FS_LoadImage : String → Bool → Option rgbdata_t
  Image_ResampleInternal :
    Option (List Nat) → Int → Int → Int → Int → pixformat_t → Option (List Nat)
  Image_Quantize : rgbdata_t → rgbdata_t
  Image_SaveWAD : String → rgbdata_t → Bool
  IMAGE_GRADIENT_DECAL : Nat

/-- The heap objects of a conversion: the record the decoder returned, the
resized record with its buffer and palette, the scratch quantize record with
its buffer. -/
inductive Obj where
  | decoded
  | scaled
  | scaled_buffer
  | scaled_palette
  | quant
  | quant_buffer
deriving DecidableEq, Repr

/-- The calls a conversion makes, in program order: the decoder (with the
force flag in effect), the resampler, Mem_Malloc for an object, FS_FreeImage
on a record (which releases the record, its buffer and its palette), the
quantizer, and the writer with the descriptor it is handed. -/
inductive Event where
  | load (filename : String) (keep8bit : Bool)
  | resample
  | malloc (o : Obj)
  | freeImage (o : Obj)
  | quantize
  | save (name : String) (image : rgbdata_t)
deriving DecidableEq, Repr

/-- The descriptors handed to the writer during a run, in order. -/
def savedImages : List Event → List rgbdata_t
  | [] => []
  | Event.save _ d :: es => d :: savedImages es
  | _ :: es => savedImages es

/-- Modelled from the spec: Q_strrchr of the engine's string library (not among
the sources), taken to be C strrchr on the characters of the string: the
suffix that starts at the last occurrence of c, none (NULL) when c does not
occur. -/
def strrchrChars (c : Char) : List Char → Option (List Char)
  | [] => none
  | x :: xs =>
    match strrchrChars c xs with
    | some r => some r
    | none => if x = c then some (x :: xs) else none

/-- Modelled from the spec: Q_strrchr on strings, see strrchrChars. -/
def Q_strrchr (s : String) (c : Char) : Option String :=
  (strrchrChars c s.data).map String.mk

/-- Modelled from the spec: Q_stricmp of the engine's string library (not among
the sources), taken to be a case-insensitive comparison that returns 0 exactly
when the two strings are equal up to the case of ASCII letters. Only the test
for 0 is used. -/
def Q_stricmp (a b : String) : Int :=
  if a.data.map Char.toLower = b.data.map Char.toLower then 0 else 1

/-! ## CL_LoadAndPrepareImage -/

/-- What CL_LoadAndPrepareImage leaves behind: the returned record (none for
NULL), the heap object that record is, the values of *width and *height, and
the calls made. -/
structure Prepared where
  image : Option rgbdata_t
  owner : Obj
  width : Int
  height : Int
  trace : List Event
deriving DecidableEq, Repr

/-- The record built at lines 96-109 for a successful resample to w x h:
a copy of the decoded record with the new size, the first size bytes of the
resampled data, and, when keep8bit is set and a palette is present, a copy of
the first palette_size bytes of the palette. -/
def scaledImage (image : rgbdata_t) (w h : Int) (keep8bit : Bool)
    (resampled_buf : List Nat) : rgbdata_t :=
  let indexed : Bool :=
    decide (image.type = pixformat_t.PF_INDEXED_24) || decide (image.type = pixformat_t.PF_INDEXED_32)
  let palette_size : Nat := 256 * (if image.type = pixformat_t.PF_INDEXED_32 then 4 else 3)
  let size : Int :=
    wrap32 (wrap32 (w * h) *
      (if image.type = pixformat_t.PF_RGBA_32 then 4 else (if indexed then 1 else 3)))
  { image with
    width := w
    height := h
    size := size
    buffer := some (resampled_buf.take size.toNat)
    palette :=
      if keep8bit = true ∧ image.palette.isSome then
        image.palette.map (List.take palette_size)
      else image.palette }

/-- The function CL_LoadAndPrepareImage, lines 50-116. The locals bpp, pix, i
and resampled are never read and are left out. -/
def CL_LoadAndPrepareImage (env : Externals) (filename : String) (width height : Int)
    (keep8bit : Bool) : Prepared :=
  match env.FS_LoadImage filename keep8bit with
  | none => ⟨none, Obj.decoded, width, height, [Event.load filename keep8bit]⟩
  | some image =>
    let fitted := CL_AdjustSprayDimensions image.width image.height
    if fitted.1 ≠ image.width ∨ fitted.2 ≠ image.height then
      match env.Image_ResampleInternal image.buffer image.width image.height
          fitted.1 fitted.2 image.type with
      | none =>
        ⟨none, Obj.decoded, fitted.1, fitted.2,
          [Event.load filename keep8bit, Event.resample, Event.freeImage Obj.decoded]⟩
      | some resampled_buf =>
        ⟨some (scaledImage image fitted.1 fitted.2 keep8bit resampled_buf), Obj.scaled,
          fitted.1, fitted.2,
          [Event.load filename keep8bit, Event.resample,
            Event.malloc Obj.scaled, Event.malloc Obj.scaled_buffer] ++
          (if keep8bit = true ∧ image.palette.isSome then [Event.malloc Obj.scaled_palette]
            else []) ++
          [Event.freeImage Obj.decoded]⟩
    else
      ⟨some image, Obj.decoded, fitted.1, fitted.2, [Event.load filename keep8bit]⟩

/-! ## CL_ConvertImageToWAD3 -/

/-- Lines 132-133: the file name has an extension (the text from its last dot)
equal to ".bmp" up to case. -/
def isBmp (filename : String) : Bool :=
  match Q_strrchr filename '.' with
  | none => false
  | some ext => decide (Q_stricmp ext ".bmp" = 0)

/-- Line 139: is_indexed_img = is_bmp && image->palette != NULL. -/
def isIndexedImg (filename : String) (image : rgbdata_t) : Bool :=
  isBmp filename && image.palette.isSome

/-- The loop of lines 143-148 on the 768-byte local palette: for i from 0 to
255, bytes 3i, 3i+1, 3i+2 are the source bytes 4i, 4i+1, 4i+2. A read past the
end of the source (undefined in C) gives 0 here. -/
def indexedPalette (src : List Nat) : List Nat :=
  (List.range 256).flatMap
    (fun i => [src.getD (i * 4 + 0) 0, src.getD (i * 4 + 1) 0, src.getD (i * 4 + 2) 0])

/-- The record handed to the quantizer, lines 153-156: a copy of the image
whose buffer is a fresh copy of the first size bytes of the image buffer. -/
def quantInput (image : rgbdata_t) : rgbdata_t :=
  { image with buffer := some ((image.buffer.getD []).take image.size.toNat) }

/-- The loop of lines 163-167: every index 255 among the first n becomes 254. -/
def remap255 (n : Nat) (buf : List Nat) : List Nat :=
  (List.range n).foldl (fun b i => if b.getD i 0 = 255 then b.set i 254 else b) buf

/-- The alpha byte of pixel i as line 174 reads it, image->buffer[i * 4 + 3]. A
read past the end of the buffer (undefined in C) gives 0 here. -/
def alphaByte (pixels : List Nat) (i : Nat) : Nat := pixels.getD (i * 4 + 3) 0

/-- The loop of lines 172-176: among the first n pixels, those whose alpha
byte is at most SPRAY_ALPHA_THRESHOLD get index 255. -/
def markTransparent (n : Nat) (pixels : List Nat) (buf : List Nat) : List Nat :=
  (List.range n).foldl
    (fun b i => if alphaByte pixels i ≤ SPRAY_ALPHA_THRESHOLD then b.set i 255 else b) buf

/-- The index buffer of the quantize path, lines 162-177 and 183, from the
normalized image, the pixel count and the quantizer's index buffer. -/
def quantIndices (image : rgbdata_t) (n : Nat) (qbuf : List Nat) : List Nat :=
  if image.type = pixformat_t.PF_RGBA_32 then
    markTransparent n (image.buffer.getD []) (remap255 n qbuf)
  else remap255 n qbuf

/-- Lines 179-182: entry 255 of the quantizer's palette is overwritten with
(0, 0, 255) and the first SPRAY_PALETTE_BYTES bytes are copied out. -/
def markerPalette (qpal : List Nat) : List Nat :=
  (((qpal.set (255 * 3 + 0) 0).set (255 * 3 + 1) 0).set (255 * 3 + 2) 255).take
    SPRAY_PALETTE_BYTES

/-- The descriptor temp_image of lines 186-194, zero-initialised at line 130. -/
def tempImage (env : Externals) (width height : Int) (indexed : Option (List Nat))
    (palette : List Nat) (is_indexed_img : Bool) : rgbdata_t :=
  { width := width
    height := height
    type := pixformat_t.PF_INDEXED_32
    flags := if is_indexed_img then 0 ||| env.IMAGE_GRADIENT_DECAL else 0
    palette := some palette
    buffer := indexed
    size := wrap32 (width * height) }

/-- The function CL_ConvertImageToWAD3, lines 119-204: the returned qboolean
and the calls made. The test !quant of line 159 cannot hold (quant was just
allocated) and is left out. -/
def CL_ConvertImageToWAD3 (env : Externals) (filename : String) : Bool × List Event :=
  let p := CL_LoadAndPrepareImage env filename 0 0 (isBmp filename)
  match p.image with
  | none => (false, p.trace)
  | some image =>
    if isIndexedImg filename image = true then
      let temp_image :=
        tempImage env p.width p.height image.buffer
          (indexedPalette (image.palette.getD [])) true
      (env.Image_SaveWAD SPRAY_FILENAME temp_image,
        p.trace ++ [Event.save SPRAY_FILENAME temp_image])
    else
      let quant := env.Image_Quantize (quantInput image)
      match quant.buffer, quant.palette with
      | some qbuf, some qpal =>
        let temp_image :=
          tempImage env p.width p.height
            (some (quantIndices image (wrap32 (p.width * p.height)).toNat qbuf))
            (markerPalette qpal) false
        (env.Image_SaveWAD SPRAY_FILENAME temp_image,
          p.trace ++ [Event.malloc Obj.quant, Event.malloc Obj.quant_buffer, Event.quantize,
            Event.save SPRAY_FILENAME temp_image])
      | _, _ =>
        (false,
          p.trace ++ [Event.malloc Obj.quant, Event.malloc Obj.quant_buffer, Event.quantize,
            Event.freeImage p.owner, Event.freeImage Obj.quant])

/-! ## Sample runs -/

/-- A 16x16 TrueColorAlpha image: pixel i has colour (i, i, i), opaque
(alpha 255) when i is even and transparent (alpha 0) when i is odd. -/
def sampleRGBA : rgbdata_t :=
  { width := 16
    height := 16
    type := pixformat_t.PF_RGBA_32
    flags := 0
    palette := none
    buffer := some ((List.range 256).flatMap (fun i => [i, i, i, if i % 2 = 0 then 255 else 0]))
    size := 1024 }

/-- A 16x16 Indexed8-RGBA image: pixel i has index i, palette entry i is
(i, i, i, 255). -/
def sampleIndexed32 : rgbdata_t :=
  { width := 16
    height := 16
    type := pixformat_t.PF_INDEXED_32
    flags := 0
    palette := some ((List.range 256).flatMap (fun i => [i, i, i, 255]))
    buffer := some (List.range 256)
    size := 256 }

/-- A 16x16 Indexed8-RGB image: pixel i has index i, palette entry i is
(i, i, i), 768 bytes in all. -/
def sampleIndexed24 : rgbdata_t :=
  { width := 16
    height := 16
    type := pixformat_t.PF_INDEXED_24
    flags := 0
    palette := some ((List.range 256).flatMap (fun i => [i, i, i]))
    buffer := some (List.range 256)
    size := 256 }

/-- The index buffer of the sample quantizer: pixel i gets index 255 - i. -/
def sampleQuantBuffer : List Nat := (List.range 256).map (fun i => 255 - i)

/-- The palette of the sample quantizer: 768 bytes, all 9. -/
def sampleQuantPalette : List Nat := List.replicate 768 9

/-- A sample set of collaborators: the decoder finds every file but
missing.tga, gives sampleRGBA when palettes are not kept, and otherwise
sampleIndexed24 for pal24.bmp and sampleIndexed32 for any other name; the
resampler always fails; the quantizer always yields the sample buffer and
palette; the writer always succeeds. -/
def sampleEnv : Externals :=
  { FS_LoadImage := fun name keep8bit =>
      if name = "missing.tga" then none
      else if keep8bit = true then
        (if name = "pal24.bmp" then some sampleIndexed24 else some sampleIndexed32)
      else some sampleRGBA
    Image_ResampleInternal := fun _ _ _ _ _ _ => none
    Image_Quantize := fun q =>
      { q with
        type := pixformat_t.PF_INDEXED_24
        buffer := some sampleQuantBuffer
        palette := some sampleQuantPalette
        size := 256 }
    Image_SaveWAD := fun _ _ => true
    IMAGE_GRADIENT_DECAL := 8192 }

/-- A 20x20 Indexed8-RGBA image, which the fitter shrinks to 16x16: 400 index
bytes, all 1, and a 1024-byte palette, all 3. -/
def sampleLargeIndexed : rgbdata_t :=
  { width := 20
    height := 20
    type := pixformat_t.PF_INDEXED_32
    flags := 0
    palette := some (List.replicate 1024 3)
    buffer := some (List.replicate 400 1)
    size := 400 }

/-- A sample set of collaborators for a resize: the decoder always gives
sampleLargeIndexed, the resampler always gives 300 bytes, all 5; the rest is as
in sampleEnv. -/
def resizeEnv : Externals :=
  { FS_LoadImage := fun _ _ => some sampleLargeIndexed
    Image_ResampleInternal := fun _ _ _ _ _ _ => some (List.replicate 300 5)
    Image_Quantize := sampleEnv.Image_Quantize
    Image_SaveWAD := fun _ _ => true
    IMAGE_GRADIENT_DECAL := 8192 }

end Spray

/-! ## The Ogg memory stream (engine/common/soundlib/snd_ogg.c)

The callbacks that let the Vorbis decoder read a file held in memory. The
types size_t, int64_t and long are those of the 64-bit Linux target: size_t
arithmetic is reduced modulo 2^64, int64_t and long are reduced with wrap64. -/

namespace Ogg

/-- The number of values of size_t, 2^64. -/
def SIZE_MOD : Nat := 18446744073709551616

/-- Two's complement reduction of a mathematical integer to a 64-bit signed
integer (int64_t, long). -/
def wrap64 (x : Int) : Int :=
  (x + 9223372036854775808) % 18446744073709551616 - 9223372036854775808

/-- The value of SEEK_SET in stdio.h. -/
def SEEK_SET : Int := 0

/-- The value of SEEK_CUR in stdio.h. -/
def SEEK_CUR : Int := 1

/-- The value of SEEK_END in stdio.h. -/
def SEEK_END : Int := 2

/-- The structure ogg_filestream_t, lines 25-31: the buffer is the memory at
the pointer, filesize and position are size_t values. -/
structure ogg_filestream_t where
  name : String
  buffer : List Nat
  filesize : Nat
  position : Nat
deriving DecidableEq, Repr

/-- The function OggFilestream_Init, lines 33-39: the stream it fills in. -/
def OggFilestream_Init (name : String) (buffer : List Nat) (filesize : Nat) :
    ogg_filestream_t :=
  { name := name, buffer := buffer, filesize := filesize, position := 0 }

/-- The function OggFilestream_Read, lines 41-54: the bytes memcpy writes at
ptr, the returned block count, and the stream afterwards. A blockSize of 0
(a division by zero in C) is outside the embedding. -/
def OggFilestream_Read (blockSize nmemb : Nat) (filestream : ogg_filestream_t) :
    List Nat × Nat × ogg_filestream_t :=
  let remain := (filestream.filesize + SIZE_MOD - filestream.position) % SIZE_MOD
  let dataSize0 := (blockSize * nmemb) % SIZE_MOD
  let dataSize := if dataSize0 > remain then remain - remain % blockSize else dataSize0
  ((filestream.buffer.drop filestream.position).take dataSize,
    dataSize / blockSize,
    { filestream with position := (filestream.position + dataSize) % SIZE_MOD })

/-- The function OggFilestream_Seek, lines 56-75: the returned int and the
stream afterwards. The sums of lines 64 and 66 are computed in size_t and
stored in the int64_t local. -/
def OggFilestream_Seek (filestream : ogg_filestream_t) (offset : Int) (whence : Int) :
    Int × ogg_filestream_t :=
  if whence = SEEK_SET ∨ whence = SEEK_CUR ∨ whence = SEEK_END then
    let position : Int :=
      if whence = SEEK_SET then offset
      else if whence = SEEK_CUR then wrap64 (offset + (filestream.position : Int))
      else wrap64 (offset + (filestream.filesize : Int))
    if position < 0 ∨ position.toNat > filestream.filesize then (-1, filestream)
    else (0, { filestream with position := position.toNat })
  else (-1, filestream)

/-- The function OggFilestream_Tell, lines 77-81: the position as a long. -/
def OggFilestream_Tell (filestream : ogg_filestream_t) : Int :=
  wrap64 (filestream.position : Int)

/-- A call of one of the two callbacks that move the stream. -/
inductive Call where
  | read (blockSize nmemb : Nat)
  | seek (offset : Int) (whence : Int)
deriving DecidableEq, Repr

/-- The stream after one call. -/
def step (filestream : ogg_filestream_t) : Call → ogg_filestream_t
  | Call.read blockSize nmemb => (OggFilestream_Read blockSize nmemb filestream).2.2
  | Call.seek offset whence => (OggFilestream_Seek filestream offset whence).2

/-- The stream after a sequence of calls. -/
def run (filestream : ogg_filestream_t) (calls : List Call) : ogg_filestream_t :=
  calls.foldl step filestream

/-- The position a seek asks for, as a mathematical integer. -/
def seekTarget (filestream : ogg_filestream_t) (offset : Int) (whence : Int) : Int :=
  if whence = SEEK_SET then offset
  else if whence = SEEK_CUR then offset + (filestream.position : Int)
  else offset + (filestream.filesize : Int)

end Ogg

/-! ## Theorems -/

namespace Spray

/-- Every result of the loop is a 16-aligned size of at least 16x16 whose
product, as the code computes it, is under the area cap. -/
theorem fitLoop_bounds (width : Int) (aspect : F32) (k : Nat) :
    (fitLoop width aspect k).1 % 16 = 0 ∧ (fitLoop width aspect k).2 % 16 = 0 ∧
    16 ≤ (fitLoop width aspect k).1 ∧ 16 ≤ (fitLoop width aspect k).2 ∧
    wrap32 ((fitLoop width aspect k).1 * (fitLoop width aspect k).2) < SPRAY_MAX_SURFACE := by
  induction k with
  | zero => simp [fitLoop]; decide
  | succ k ih =>
    simp only [fitLoop]
    split_ifs with h1 h2
    · exact ih
    · have hc : ¬ candidateWidth aspect (16 * ((k : Int) + 1)) < 16 := fun h => h1 (Or.inl h)
      refine ⟨?_, ?_, ?_, ?_, ?_⟩
      · simp [candidateWidth]
      · simp
      · simpa using hc
      · simp only; omega
      · simpa using h2
    · exact ih

/-- The loop returns the tallest of the k candidate heights 16, 32, .., 16k
that passes the tests, with its candidate width, or the fallback 16x16 when
none passes. -/
theorem fitLoop_spec (width : Int) (aspect : F32) (k : Nat) :
    (∃ j : Nat, 1 ≤ j ∧ j ≤ k ∧
        passes width (candidateWidth aspect (16 * (j : Int))) (16 * (j : Int)) ∧
        fitLoop width aspect k = (candidateWidth aspect (16 * (j : Int)), 16 * (j : Int)) ∧
        ∀ i : Nat, j < i → i ≤ k →
          ¬ passes width (candidateWidth aspect (16 * (i : Int))) (16 * (i : Int)))
    ∨ ((∀ i : Nat, 1 ≤ i → i ≤ k →
          ¬ passes width (candidateWidth aspect (16 * (i : Int))) (16 * (i : Int)))
        ∧ fitLoop width aspect k = (16, 16)) := by
  induction k with
  | zero =>
    right
    exact ⟨fun i h1 h0 => absurd h1 (by omega), rfl⟩
  | succ k ih =>
    have hcast : (16 : Int) * (((k + 1 : Nat)) : Int) = 16 * ((k : Int) + 1) := by push_cast; ring
    by_cases hp : passes width (candidateWidth aspect (16 * ((k : Int) + 1))) (16 * ((k : Int) + 1))
    · left
      refine ⟨k + 1, by omega, le_refl _, ?_, ?_, ?_⟩
      · rw [hcast]; exact hp
      · rw [hcast]
        obtain ⟨a, b, c⟩ := hp
        simp only [fitLoop]
        rw [if_neg (by intro h; rcases h with h | h <;> omega), if_pos c]
      · intro i hi hi2
        omega
    · have hstep : fitLoop width aspect (k + 1) = fitLoop width aspect k := by
        simp only [fitLoop]
        split_ifs with h1 h2
        · rfl
        · exfalso
          apply hp
          refine ⟨?_, ?_, h2⟩
          · by_contra hlt; exact h1 (Or.inl (by omega))
          · by_contra hlt; exact h1 (Or.inr (by omega))
        · rfl
      rcases ih with ⟨j, hj1, hjk, hpj, heq, hmax⟩ | ⟨hnone, heq⟩
      · left
        refine ⟨j, hj1, by omega, hpj, by rw [hstep]; exact heq, ?_⟩
        intro i hji hik
        by_cases hik2 : i ≤ k
        · exact hmax i hji hik2
        · have : i = k + 1 := by omega
          subst this
          rw [hcast]; exact hp
      · right
        refine ⟨?_, by rw [hstep]; exact heq⟩
        intro i hi1 hik
        by_cases hik2 : i ≤ k
        · exact hnone i hi1 hik2
        · have : i = k + 1 := by omega
          subst this
          rw [hcast]; exact hp

/-! ### The loops of the quantize path -/

theorem remap255_succ (n : Nat) (buf : List Nat) :
    remap255 (n + 1) buf =
      if (remap255 n buf).getD n 0 = 255 then (remap255 n buf).set n 254 else remap255 n buf := by
  simp [remap255, List.range_succ, List.foldl_append]


theorem remap255_getElem? (n : Nat) (buf : List Nat) (i : Nat) :
    (remap255 n buf)[i]? =
      if i < n then (buf[i]?).map (fun x => if x = 255 then 254 else x) else buf[i]? := by
  induction n generalizing i with
  | zero => simp [remap255]
  | succ n ih =>
    rw [remap255_succ]
    have hn : (remap255 n buf)[n]? = buf[n]? := by rw [ih n]; simp
    rw [List.getD_eq_getElem?_getD, hn]
    by_cases hin : i = n
    · subst hin
      rcases hb : buf[i]? with _ | x
      · simp [hn, hb]
      · by_cases hx : x = 255
        · subst hx
          have hlen : i < (remap255 i buf).length := by
            by_contra hcon
            have := List.getElem?_eq_none (Nat.le_of_not_lt hcon)
            rw [hn, hb] at this
            exact absurd this (by simp)
          simp [hlen]
        · simp [hx, hn, hb]
    · have hlt : i < n + 1 ↔ i < n := by omega
      by_cases hc : buf[n]?.getD 0 = 255
      · rw [if_pos hc, List.getElem?_set_ne (Ne.symm hin), ih i]
        simp only [hlt]
      · rw [if_neg hc, ih i]
        simp only [hlt]

theorem markTransparent_succ (n : Nat) (pixels buf : List Nat) :
    markTransparent (n + 1) pixels buf =
      if alphaByte pixels n ≤ SPRAY_ALPHA_THRESHOLD then (markTransparent n pixels buf).set n 255
      else markTransparent n pixels buf := by
  simp [markTransparent, List.range_succ, List.foldl_append]

theorem markTransparent_length (n : Nat) (pixels buf : List Nat) :
    (markTransparent n pixels buf).length = buf.length := by
  induction n with
  | zero => simp [markTransparent]
  | succ n ih => rw [markTransparent_succ]; split_ifs <;> simp [ih]

theorem markTransparent_getElem? (n : Nat) (pixels buf : List Nat) (i : Nat) :
    (markTransparent n pixels buf)[i]? =
      if i < n ∧ alphaByte pixels i ≤ SPRAY_ALPHA_THRESHOLD then (buf[i]?).map (fun _ => 255)
      else buf[i]? := by
  induction n generalizing i with
  | zero => simp [markTransparent]
  | succ n ih =>
    rw [markTransparent_succ]
    by_cases hin : i = n
    · subst hin
      have hn : (markTransparent i pixels buf)[i]? = buf[i]? := by rw [ih i]; simp
      by_cases ha : alphaByte pixels i ≤ SPRAY_ALPHA_THRESHOLD
      · rw [if_pos ha, if_pos ⟨Nat.lt_succ_self i, ha⟩, List.getElem?_set, if_pos rfl,
          markTransparent_length]
        by_cases hl : i < buf.length
        · simp [hl]
        · simp [hl, List.getElem?_eq_none (Nat.le_of_not_lt hl)]
      · rw [if_neg ha, if_neg (fun h => ha h.2), hn]
    · have hlt : i < n + 1 ↔ i < n := by omega
      by_cases ha : alphaByte pixels n ≤ SPRAY_ALPHA_THRESHOLD
      · rw [if_pos ha, List.getElem?_set_ne (Ne.symm hin), ih i]
        simp only [hlt]
      · rw [if_neg ha, ih i]
        simp only [hlt]

/-- The final index of the quantize path at position i, from the quantizer's
index: 255 for a flagged pixel of an RGBA image, otherwise the remapped index
among the first n pixels and the quantizer's index beyond them. -/
theorem quantIndices_getElem? (image : rgbdata_t) (n : Nat) (qbuf : List Nat) (i : Nat) :
    (quantIndices image n qbuf)[i]? =
      if image.type = pixformat_t.PF_RGBA_32 ∧ i < n ∧
          alphaByte (image.buffer.getD []) i ≤ SPRAY_ALPHA_THRESHOLD then
        (qbuf[i]?).map (fun _ => 255)
      else if i < n then (qbuf[i]?).map (fun x => if x = 255 then 254 else x)
      else qbuf[i]? := by
  unfold quantIndices
  by_cases ht : image.type = pixformat_t.PF_RGBA_32
  · rw [if_pos ht, markTransparent_getElem?, remap255_getElem?]
    by_cases hi : i < n
    · by_cases ha : alphaByte (image.buffer.getD []) i ≤ SPRAY_ALPHA_THRESHOLD
      · simp only [hi, ha, ht, and_self, if_true]
        cases qbuf[i]? <;> rfl
      · simp only [hi, ha, ht, and_false, and_true, if_false, if_true]
    · simp only [hi, false_and, and_false, if_false]
  · rw [if_neg ht, if_neg (fun h => ht h.1), remap255_getElem?]

/-! ### Runs of CL_ConvertImageToWAD3 -/

theorem savedImages_append (a b : List Event) :
    savedImages (a ++ b) = savedImages a ++ savedImages b := by
  induction a with
  | nil => rfl
  | cons e es ih => cases e <;> simp [savedImages, ih]

/-- The normalizer never calls the writer. -/
theorem savedImages_prepared (env : Externals) (filename : String) (w h : Int) (k : Bool) :
    savedImages (CL_LoadAndPrepareImage env filename w h k).trace = [] := by
  unfold CL_LoadAndPrepareImage
  cases env.FS_LoadImage filename k with
  | none => rfl
  | some image =>
    dsimp only
    by_cases h1 : (CL_AdjustSprayDimensions image.width image.height).1 ≠ image.width ∨
        (CL_AdjustSprayDimensions image.width image.height).2 ≠ image.height
    · rw [if_pos h1]
      cases env.Image_ResampleInternal image.buffer image.width image.height
          (CL_AdjustSprayDimensions image.width image.height).1
          (CL_AdjustSprayDimensions image.width image.height).2 image.type with
      | none => rfl
      | some rb =>
        dsimp only
        split_ifs <;> rfl
    · rw [if_neg h1]
      rfl

/-- The run of the quantize path when the quantizer yields a buffer and a
palette. -/
theorem convert_quantize_path (env : Externals) (filename : String) (image : rgbdata_t)
    (qbuf qpal : List Nat)
    (himg : (CL_LoadAndPrepareImage env filename 0 0 (isBmp filename)).image = some image)
    (hpath : isIndexedImg filename image = false)
    (hqb : (env.Image_Quantize (quantInput image)).buffer = some qbuf)
    (hqp : (env.Image_Quantize (quantInput image)).palette = some qpal) :
    CL_ConvertImageToWAD3 env filename =
      (env.Image_SaveWAD SPRAY_FILENAME
          (tempImage env (CL_LoadAndPrepareImage env filename 0 0 (isBmp filename)).width
            (CL_LoadAndPrepareImage env filename 0 0 (isBmp filename)).height
            (some (quantIndices image
              (wrap32 ((CL_LoadAndPrepareImage env filename 0 0 (isBmp filename)).width *
                (CL_LoadAndPrepareImage env filename 0 0 (isBmp filename)).height)).toNat qbuf))
            (markerPalette qpal) false),
        (CL_LoadAndPrepareImage env filename 0 0 (isBmp filename)).trace ++
          [Event.malloc Obj.quant, Event.malloc Obj.quant_buffer, Event.quantize,
            Event.save SPRAY_FILENAME
              (tempImage env (CL_LoadAndPrepareImage env filename 0 0 (isBmp filename)).width
                (CL_LoadAndPrepareImage env filename 0 0 (isBmp filename)).height
                (some (quantIndices image
                  (wrap32 ((CL_LoadAndPrepareImage env filename 0 0 (isBmp filename)).width *
                    (CL_LoadAndPrepareImage env filename 0 0 (isBmp filename)).height)).toNat
                  qbuf))
                (markerPalette qpal) false)]) := by
  simp only [CL_ConvertImageToWAD3, himg, hpath, hqb, hqp]
  rfl

/-- The run of the indexed-reuse path. -/
theorem convert_indexed_path (env : Externals) (filename : String) (image : rgbdata_t)
    (himg : (CL_LoadAndPrepareImage env filename 0 0 (isBmp filename)).image = some image)
    (hpath : isIndexedImg filename image = true) :
    CL_ConvertImageToWAD3 env filename =
      (env.Image_SaveWAD SPRAY_FILENAME
          (tempImage env (CL_LoadAndPrepareImage env filename 0 0 (isBmp filename)).width
            (CL_LoadAndPrepareImage env filename 0 0 (isBmp filename)).height
            image.buffer (indexedPalette (image.palette.getD [])) true),
        (CL_LoadAndPrepareImage env filename 0 0 (isBmp filename)).trace ++
          [Event.save SPRAY_FILENAME
            (tempImage env (CL_LoadAndPrepareImage env filename 0 0 (isBmp filename)).width
              (CL_LoadAndPrepareImage env filename 0 0 (isBmp filename)).height
              image.buffer (indexedPalette (image.palette.getD [])) true)]) := by
  simp only [CL_ConvertImageToWAD3, himg, hpath]
  rfl

/-- For a positive height, the first candidate index of the fitter is the
floor of height / 16. -/
theorem first_candidate_index (h : Int) (hh : 0 < h) :
    (((h.tdiv 16).toNat : Nat) : Int) = h / 16 := by
  rw [Int.tdiv_eq_ediv (le_of_lt hh) (by decide)]
  exact Int.toNat_of_nonneg (Int.ediv_nonneg (le_of_lt hh) (by decide))

/-- C1 (Fit bounds): for all positive integers (w, h) the fitter yields (W, H)
with W % 16 = 0, H % 16 = 0, W ≥ 16, H ≥ 16 and W * H < 12228, the product
being the one the code computes in C int arithmetic. -/
theorem fit_bounds (w h : Int) (_hw : 0 < w) (_hh : 0 < h) :
    (CL_AdjustSprayDimensions w h).1 % 16 = 0 ∧
    (CL_AdjustSprayDimensions w h).2 % 16 = 0 ∧
    16 ≤ (CL_AdjustSprayDimensions w h).1 ∧
    16 ≤ (CL_AdjustSprayDimensions w h).2 ∧
    wrap32 ((CL_AdjustSprayDimensions w h).1 * (CL_AdjustSprayDimensions w h).2)
      < SPRAY_MAX_SURFACE :=
  fitLoop_bounds w (F32.div (F32.ofInt w) (F32.ofInt h)) (h.tdiv 16).toNat

/-- Instance of the fit bounds at the source 200x150. -/
theorem fit_bounds_witness :
    (0 : Int) < 200 ∧ (0 : Int) < 150 ∧
    (CL_AdjustSprayDimensions 200 150).1 % 16 = 0 ∧
    (CL_AdjustSprayDimensions 200 150).2 % 16 = 0 ∧
    16 ≤ (CL_AdjustSprayDimensions 200 150).1 ∧
    16 ≤ (CL_AdjustSprayDimensions 200 150).2 ∧
    wrap32 ((CL_AdjustSprayDimensions 200 150).1 * (CL_AdjustSprayDimensions 200 150).2)
      < SPRAY_MAX_SURFACE :=
  ⟨by decide, by decide, fit_bounds 200 150 (by decide) (by decide)⟩

/-- C2 (Fit no-op), failing input: the source 16x656 satisfies the Fit
constraints (both sides multiples of 16 and at least 16, area 10496 < 12228),
yet the fitter returns 16x16. The float quotient 16 / 656 is rounded down to
13094412 * 2^-29, the product 656 * aspect is rounded to 16777215 * 2^-20, just
below 16, and its truncation 15 gives the candidate width 0, which line 34
rejects; every lower height gives 0 as well. -/
theorem fit_noop_fails_16_656 :
    ((16 : Int) % 16 = 0 ∧ (656 : Int) % 16 = 0 ∧ (16 : Int) ≤ 16 ∧ (16 : Int) ≤ 656 ∧
      (16 : Int) * 656 < SPRAY_MAX_SURFACE) ∧
    F32.div (F32.ofInt 16) (F32.ofInt 656) = ⟨13094412, -29⟩ ∧
    F32.mul (F32.ofInt 656) ⟨13094412, -29⟩ = ⟨16777215, -20⟩ ∧
    f2i ⟨16777215, -20⟩ = 15 ∧
    candidate 16 656 656 = 0 ∧
    CL_AdjustSprayDimensions 16 656 = (16, 16) ∧
    CL_AdjustSprayDimensions 16 656 ≠ (16, 656) := by
  refine ⟨by decide, by decide, by decide, by decide, by decide, by decide, by decide⟩

set_option maxRecDepth 1000000 in
set_option maxHeartbeats 0 in
/-- The no-op property on every conforming size 16a x 16b (a * b ≤ 47), by
evaluation: it holds everywhere but at 16x656 and 16x752. -/
theorem fit_noop_table :
    ∀ a ∈ List.range 48, ∀ b ∈ List.range 48, 1 ≤ a ∧ 1 ≤ b ∧ a * b ≤ 47 →
      (a = 1 ∧ b = 41) ∨ (a = 1 ∧ b = 47) ∨
      CL_AdjustSprayDimensions (16 * (a : Int)) (16 * (b : Int))
        = (16 * (a : Int), 16 * (b : Int)) := by
  decide

/-- Outside the two failing sizes the fitter leaves every conforming size
unchanged. -/
theorem fit_noop_elsewhere (w h : Int) (hw16 : w % 16 = 0) (hh16 : h % 16 = 0)
    (hw : 16 ≤ w) (hh : 16 ≤ h) (harea : w * h < SPRAY_MAX_SURFACE)
    (hne1 : (w, h) ≠ (16, 656)) (hne2 : (w, h) ≠ (16, 752)) :
    CL_AdjustSprayDimensions w h = (w, h) := by
  obtain ⟨a, ha⟩ : ∃ a : Nat, w = 16 * (a : Int) := ⟨(w / 16).toNat, by omega⟩
  obtain ⟨b, hb⟩ : ∃ b : Nat, h = 16 * (b : Int) := ⟨(h / 16).toNat, by omega⟩
  subst ha
  subst hb
  have ha1 : 1 ≤ a := by omega
  have hb1 : 1 ≤ b := by omega
  have hab : a * b ≤ 47 := by
    have h1 : (16 * (a : Int)) * (16 * (b : Int)) = 256 * (((a * b : Nat)) : Int) := by
      push_cast; ring
    rw [h1] at harea
    have h2 : (((a * b : Nat)) : Int) ≤ 47 := by
      unfold SPRAY_MAX_SURFACE at harea
      omega
    exact_mod_cast h2
  have ha47 : a < 48 := by
    have := Nat.le_trans (Nat.le_mul_of_pos_right a hb1) hab
    omega
  have hb47 : b < 48 := by
    have := Nat.le_trans (Nat.le_mul_of_pos_left b ha1) hab
    omega
  rcases fit_noop_table a (List.mem_range.mpr ha47) b (List.mem_range.mpr hb47)
      ⟨ha1, hb1, hab⟩ with ⟨h1, h2⟩ | ⟨h1, h2⟩ | h3
  · subst h1; subst h2
    exact absurd rfl hne1
  · subst h1; subst h2
    exact absurd rfl hne2
  · exact h3

/-- A source whose area product overflows a 32-bit int: at 65536x65536 the first
candidate is 65536x65536, its product 2^32 wraps to 0 and passes the area test
of line 37, so the size is returned unchanged. -/
theorem fit_wraps_65536 :
    candidate 65536 65536 65536 = 65536 ∧ wrap32 (65536 * 65536) = 0 ∧
    CL_AdjustSprayDimensions 65536 65536 = (65536, 65536) := by
  refine ⟨by decide, by decide, by decide⟩

/-- The greedy search over the candidate widths the code computes: for every
positive (w, h) for which some candidate height qualifies, the fitter returns
(W, H) where H is a multiple of 16 with 16 ≤ H ≤ h that qualifies (its
candidate width, the binary32 value of line 33, has 16 ≤ c ≤ w and
c * H < 12228 as the code computes the product), W is that candidate width, and
every taller multiple of 16 up to h fails one of those tests. -/
theorem fit_greedy (w h : Int) (_hw : 0 < w) (hh : 0 < h)
    (hex : ∃ H : Int, 16 ∣ H ∧ 16 ≤ H ∧ H ≤ h ∧ qualifies w h H) :
    16 ∣ (CL_AdjustSprayDimensions w h).2 ∧
    16 ≤ (CL_AdjustSprayDimensions w h).2 ∧
    (CL_AdjustSprayDimensions w h).2 ≤ h ∧
    qualifies w h (CL_AdjustSprayDimensions w h).2 ∧
    (CL_AdjustSprayDimensions w h).1 = candidate w h (CL_AdjustSprayDimensions w h).2 ∧
    ∀ T : Int, 16 ∣ T → (CL_AdjustSprayDimensions w h).2 < T → T ≤ h →
      ¬ qualifies w h T := by
  have hk := first_candidate_index h hh
  obtain ⟨H, ⟨c, rfl⟩, hH16, hHh, hq⟩ := hex
  rcases fitLoop_spec w (F32.div (F32.ofInt w) (F32.ofInt h)) (h.tdiv 16).toNat with
    ⟨j, hj1, hjk, hpj, heq, hmax⟩ | ⟨hnone, _⟩
  · have hr : CL_AdjustSprayDimensions w h
        = (candidateWidth (F32.div (F32.ofInt w) (F32.ofInt h)) (16 * (j : Int)), 16 * (j : Int)) :=
      heq
    have hjk2 : (j : Int) ≤ h / 16 := by rw [← hk]; exact_mod_cast hjk
    rw [hr]
    refine ⟨Dvd.intro _ rfl, by simp only; omega, by simp only; omega, hpj, rfl, ?_⟩
    rintro T ⟨t, rfl⟩ hlt hle
    simp only at hlt
    have ht : ((t.toNat : Nat) : Int) = t := Int.toNat_of_nonneg (by omega)
    have h1 : j < t.toNat := by omega
    have h2 : t.toNat ≤ (h.tdiv 16).toNat := by
      have : ((t.toNat : Nat) : Int) ≤ (((h.tdiv 16).toNat : Nat) : Int) := by
        rw [hk, ht]; omega
      exact_mod_cast this
    have := hmax t.toNat h1 h2
    rw [ht] at this
    exact this
  · exfalso
    have hc : ((c.toNat : Nat) : Int) = c := Int.toNat_of_nonneg (by omega)
    have h1 : 1 ≤ c.toNat := by omega
    have h2 : c.toNat ≤ (h.tdiv 16).toNat := by
      have : ((c.toNat : Nat) : Int) ≤ (((h.tdiv 16).toNat : Nat) : Int) := by
        rw [hk, hc]; omega
      exact_mod_cast this
    have := hnone c.toNat h1 h2
    rw [hc] at this
    exact this hq

/-- The example of the specification: fit(200, 150) = (96, 80); the heights
144, 128, 112 and 96 have candidate widths 192, 160, 144 and 128, which pass
the width tests and are rejected by the area test. -/
theorem fit_greedy_witness :
    ((0 : Int) < 200 ∧ (0 : Int) < 150 ∧ qualifies 200 150 80) ∧
    CL_AdjustSprayDimensions 200 150 = (96, 80) ∧
    (candidate 200 150 144 = 192 ∧ ¬ wrap32 (192 * 144) < SPRAY_MAX_SURFACE) ∧
    (candidate 200 150 128 = 160 ∧ ¬ wrap32 (160 * 128) < SPRAY_MAX_SURFACE) ∧
    (candidate 200 150 112 = 144 ∧ ¬ wrap32 (144 * 112) < SPRAY_MAX_SURFACE) ∧
    (candidate 200 150 96 = 128 ∧ ¬ wrap32 (128 * 96) < SPRAY_MAX_SURFACE) ∧
    (16 ∣ (CL_AdjustSprayDimensions 200 150).2 ∧
     16 ≤ (CL_AdjustSprayDimensions 200 150).2 ∧
     (CL_AdjustSprayDimensions 200 150).2 ≤ 150 ∧
     qualifies 200 150 (CL_AdjustSprayDimensions 200 150).2 ∧
     (CL_AdjustSprayDimensions 200 150).1
       = candidate 200 150 (CL_AdjustSprayDimensions 200 150).2 ∧
     ∀ T : Int, 16 ∣ T → (CL_AdjustSprayDimensions 200 150).2 < T → T ≤ 150 →
       ¬ qualifies 200 150 T) :=
  ⟨by decide, by decide, by decide, by decide, by decide, by decide,
    fit_greedy 200 150 (by decide) (by decide) ⟨80, by decide⟩⟩

/-- C4 (Fit fallback): the fitter returns exactly (16, 16) whenever no candidate
height qualifies; in particular for every source of height below 16, whatever
its positive width. -/
theorem fit_fallback (w h : Int) (_hw : 0 < w) (hh : 0 < h) :
    ((∀ H : Int, 16 ∣ H → 16 ≤ H → H ≤ h → ¬ qualifies w h H) →
      CL_AdjustSprayDimensions w h = (16, 16)) ∧
    (h < 16 → CL_AdjustSprayDimensions w h = (16, 16)) := by
  have hk := first_candidate_index h hh
  constructor
  · intro hno
    rcases fitLoop_spec w (F32.div (F32.ofInt w) (F32.ofInt h)) (h.tdiv 16).toNat with
      ⟨j, hj1, hjk, hpj, _, _⟩ | ⟨_, heq⟩
    · exfalso
      have hjk2 : (j : Int) ≤ h / 16 := by rw [← hk]; exact_mod_cast hjk
      exact hno (16 * (j : Int)) (Dvd.intro _ rfl) (by omega) (by omega) hpj
    · exact heq
  · intro hlt
    have h0 : (h.tdiv 16).toNat = 0 := by
      have : (((h.tdiv 16).toNat : Nat) : Int) = 0 := by rw [hk]; omega
      exact_mod_cast this
    unfold CL_AdjustSprayDimensions
    rw [h0]
    rfl

/-- The example of the specification: fit(1, 1) = (16, 16), and the same for
the source 4000x15, both by the height being below 16. -/
theorem fit_fallback_witness :
    ((0 : Int) < 1 ∧ (1 : Int) < 16 ∧ CL_AdjustSprayDimensions 1 1 = (16, 16)) ∧
    ((0 : Int) < 4000 ∧ (0 : Int) < 15 ∧ (15 : Int) < 16 ∧
      CL_AdjustSprayDimensions 4000 15 = (16, 16)) :=
  ⟨⟨by decide, by decide, (fit_fallback 1 1 (by decide) (by decide)).2 (by decide)⟩,
   ⟨by decide, by decide, by decide,
    (fit_fallback 4000 15 (by decide) (by decide)).2 (by decide)⟩⟩

/-- On the quantize path the writer is called once, with the descriptor of
lines 186-191 over the remapped indices and the marker palette. -/
theorem savedImages_quantize_path (env : Externals) (filename : String) (image : rgbdata_t)
    (qbuf qpal : List Nat)
    (himg : (CL_LoadAndPrepareImage env filename 0 0 (isBmp filename)).image = some image)
    (hpath : isIndexedImg filename image = false)
    (hqb : (env.Image_Quantize (quantInput image)).buffer = some qbuf)
    (hqp : (env.Image_Quantize (quantInput image)).palette = some qpal) :
    savedImages (CL_ConvertImageToWAD3 env filename).2 =
      [tempImage env (CL_LoadAndPrepareImage env filename 0 0 (isBmp filename)).width
        (CL_LoadAndPrepareImage env filename 0 0 (isBmp filename)).height
        (some (quantIndices image
          (wrap32 ((CL_LoadAndPrepareImage env filename 0 0 (isBmp filename)).width *
            (CL_LoadAndPrepareImage env filename 0 0 (isBmp filename)).height)).toNat qbuf))
        (markerPalette qpal) false] := by
  rw [convert_quantize_path env filename image qbuf qpal himg hpath hqb hqp]
  simp only [savedImages_append, savedImages_prepared]
  rfl

/-- On the indexed-reuse path the writer is called once, with the descriptor
of lines 186-194 over the image buffer and the copied palette. -/
theorem savedImages_indexed_path (env : Externals) (filename : String) (image : rgbdata_t)
    (himg : (CL_LoadAndPrepareImage env filename 0 0 (isBmp filename)).image = some image)
    (hpath : isIndexedImg filename image = true) :
    savedImages (CL_ConvertImageToWAD3 env filename).2 =
      [tempImage env (CL_LoadAndPrepareImage env filename 0 0 (isBmp filename)).width
        (CL_LoadAndPrepareImage env filename 0 0 (isBmp filename)).height
        image.buffer (indexedPalette (image.palette.getD [])) true] := by
  rw [convert_indexed_path env filename image himg hpath]
  simp only [savedImages_append, savedImages_prepared]
  rfl

/-- C5 (Collision-avoidance): on the quantize path the writer receives one
descriptor, and for every pixel i < width * height that is not alpha-flagged
(the normalized image is not RGBA, or its alpha byte is 255) the final index is
254 if the quantizer produced 255 and is the quantizer's index otherwise, hence
never 255; a final index of 255 among those pixels occurs only for a pixel of
an RGBA image whose alpha byte is at most 254. -/
theorem collision_avoidance (env : Externals) (filename : String) (image : rgbdata_t)
    (qbuf qpal : List Nat)
    (himg : (CL_LoadAndPrepareImage env filename 0 0 (isBmp filename)).image = some image)
    (hpath : isIndexedImg filename image = false)
    (hqb : (env.Image_Quantize (quantInput image)).buffer = some qbuf)
    (hqp : (env.Image_Quantize (quantInput image)).palette = some qpal) :
    ∃ (d : rgbdata_t) (final : List Nat),
      savedImages (CL_ConvertImageToWAD3 env filename).2 = [d] ∧ d.buffer = some final ∧
      (∀ i q : Nat, i < (wrap32 (d.width * d.height)).toNat →
        (image.type ≠ pixformat_t.PF_RGBA_32 ∨ (image.buffer.getD [])[i * 4 + 3]? = some 255) →
        qbuf[i]? = some q →
        final[i]? = some (if q = 255 then 254 else q) ∧ final[i]? ≠ some 255) ∧
      (∀ i : Nat, i < (wrap32 (d.width * d.height)).toNat → final[i]? = some 255 →
        image.type = pixformat_t.PF_RGBA_32 ∧
        ∀ a : Nat, (image.buffer.getD [])[i * 4 + 3]? = some a → a ≤ SPRAY_ALPHA_THRESHOLD) := by
  refine ⟨_, _, savedImages_quantize_path env filename image qbuf qpal himg hpath hqb hqp,
    rfl, ?_, ?_⟩
  · intro i q hi hflag hq
    have hi2 : i < (wrap32 ((CL_LoadAndPrepareImage env filename 0 0 (isBmp filename)).width *
        (CL_LoadAndPrepareImage env filename 0 0 (isBmp filename)).height)).toNat := hi
    have hnot : ¬ (image.type = pixformat_t.PF_RGBA_32 ∧
        i < (wrap32 ((CL_LoadAndPrepareImage env filename 0 0 (isBmp filename)).width *
          (CL_LoadAndPrepareImage env filename 0 0 (isBmp filename)).height)).toNat ∧
        alphaByte (image.buffer.getD []) i ≤ SPRAY_ALPHA_THRESHOLD) := by
      rintro ⟨ht, _, ha⟩
      rcases hflag with hne | h255
      · exact hne ht
      · unfold alphaByte at ha
        rw [List.getD_eq_getElem?_getD, h255] at ha
        exact absurd ha (by decide)
    have hval : (quantIndices image
        (wrap32 ((CL_LoadAndPrepareImage env filename 0 0 (isBmp filename)).width *
          (CL_LoadAndPrepareImage env filename 0 0 (isBmp filename)).height)).toNat qbuf)[i]?
        = some (if q = 255 then 254 else q) := by
      rw [quantIndices_getElem?, if_neg hnot, if_pos hi2, hq]
      rfl
    refine ⟨hval, ?_⟩
    rw [hval]
    by_cases hq255 : q = 255
    · rw [if_pos hq255]; decide
    · rw [if_neg hq255]
      intro h
      exact hq255 (Option.some.inj h)
  · intro i hi hfin
    have hi2 : i < (wrap32 ((CL_LoadAndPrepareImage env filename 0 0 (isBmp filename)).width *
        (CL_LoadAndPrepareImage env filename 0 0 (isBmp filename)).height)).toNat := hi
    have hfin2 : (quantIndices image
        (wrap32 ((CL_LoadAndPrepareImage env filename 0 0 (isBmp filename)).width *
          (CL_LoadAndPrepareImage env filename 0 0 (isBmp filename)).height)).toNat qbuf)[i]?
        = some 255 := hfin
    rw [quantIndices_getElem?] at hfin2
    split_ifs at hfin2 with h1
    · refine ⟨h1.1, ?_⟩
      intro a ha
      have h3 := h1.2.2
      unfold alphaByte at h3
      rw [List.getD_eq_getElem?_getD, ha] at h3
      exact h3
    · exfalso
      rcases hq : qbuf[i]? with _ | q
      · rw [hq] at hfin2
        exact absurd hfin2 (by simp)
      · rw [hq] at hfin2
        have h4 : (if q = 255 then 254 else q) = 255 := Option.some.inj hfin2
        by_cases hq255 : q = 255
        · rw [if_pos hq255] at h4
          exact absurd h4 (by decide)
        · rw [if_neg hq255] at h4
          exact hq255 h4

/-- A run of the quantize path on the sample RGBA image, whose even pixels are
opaque: the quantizer gives the opaque pixel 0 the index 255 and the
transparent pixel 1 the index 254. -/
theorem collision_avoidance_witness :
    ((CL_LoadAndPrepareImage sampleEnv "spray.tga" 0 0 (isBmp "spray.tga")).image
        = some sampleRGBA ∧
      isIndexedImg "spray.tga" sampleRGBA = false ∧
      (sampleEnv.Image_Quantize (quantInput sampleRGBA)).buffer = some sampleQuantBuffer ∧
      (sampleEnv.Image_Quantize (quantInput sampleRGBA)).palette = some sampleQuantPalette) ∧
    ∃ (d : rgbdata_t) (final : List Nat),
      savedImages (CL_ConvertImageToWAD3 sampleEnv "spray.tga").2 = [d] ∧
      d.buffer = some final ∧
      (∀ i q : Nat, i < (wrap32 (d.width * d.height)).toNat →
        (sampleRGBA.type ≠ pixformat_t.PF_RGBA_32 ∨
          (sampleRGBA.buffer.getD [])[i * 4 + 3]? = some 255) →
        sampleQuantBuffer[i]? = some q →
        final[i]? = some (if q = 255 then 254 else q) ∧ final[i]? ≠ some 255) ∧
      (∀ i : Nat, i < (wrap32 (d.width * d.height)).toNat → final[i]? = some 255 →
        sampleRGBA.type = pixformat_t.PF_RGBA_32 ∧
        ∀ a : Nat, (sampleRGBA.buffer.getD [])[i * 4 + 3]? = some a →
          a ≤ SPRAY_ALPHA_THRESHOLD) :=
  ⟨⟨by rfl, by rfl, by rfl, by rfl⟩,
    collision_avoidance sampleEnv "spray.tga" sampleRGBA sampleQuantBuffer sampleQuantPalette
      (by rfl) (by rfl) (by rfl) (by rfl)⟩

/-- Entry 255 of the palette copied out at lines 179-182 is (0, 0, 255) when the
quantizer's palette has its 768 bytes. -/
theorem markerPalette_entry255 (qpal : List Nat) (hpal : SPRAY_PALETTE_BYTES ≤ qpal.length) :
    (markerPalette qpal)[255 * 3 + 0]? = some 0 ∧
    (markerPalette qpal)[255 * 3 + 1]? = some 0 ∧
    (markerPalette qpal)[255 * 3 + 2]? = some 255 := by
  have h768 : 768 ≤ qpal.length := hpal
  unfold markerPalette
  have e : SPRAY_PALETTE_BYTES = 768 := rfl
  rw [e]
  refine ⟨?_, ?_, ?_⟩
  · rw [List.getElem?_take_of_lt (by decide), List.getElem?_set_ne (by decide),
      List.getElem?_set_ne (by decide), List.getElem?_set, if_pos rfl, if_pos (by omega)]
  · rw [List.getElem?_take_of_lt (by decide), List.getElem?_set_ne (by decide),
      List.getElem?_set, if_pos rfl, if_pos (by rw [List.length_set]; omega)]
  · rw [List.getElem?_take_of_lt (by decide), List.getElem?_set, if_pos rfl,
      if_pos (by rw [List.length_set, List.length_set]; omega)]

/-- C6 (Transparency marker): on the quantize path, with a quantizer palette of
256 entries, the output palette's entry 255 is exactly (R=0, G=0, B=255)
whatever the quantizer put there, and when the normalized image is RGBA every
pixel i < width * height to which the quantizer gave an index and whose alpha
byte is at most 254 has final index 255. -/
theorem transparency_marker (env : Externals) (filename : String) (image : rgbdata_t)
    (qbuf qpal : List Nat)
    (himg : (CL_LoadAndPrepareImage env filename 0 0 (isBmp filename)).image = some image)
    (hpath : isIndexedImg filename image = false)
    (hqb : (env.Image_Quantize (quantInput image)).buffer = some qbuf)
    (hqp : (env.Image_Quantize (quantInput image)).palette = some qpal)
    (hpal : SPRAY_PALETTE_BYTES ≤ qpal.length) :
    ∃ (d : rgbdata_t) (pal final : List Nat),
      savedImages (CL_ConvertImageToWAD3 env filename).2 = [d] ∧
      d.palette = some pal ∧ d.buffer = some final ∧
      (pal[255 * 3 + 0]? = some 0 ∧ pal[255 * 3 + 1]? = some 0 ∧ pal[255 * 3 + 2]? = some 255) ∧
      (image.type = pixformat_t.PF_RGBA_32 →
        ∀ i a : Nat, i < (wrap32 (d.width * d.height)).toNat → i < qbuf.length →
          (image.buffer.getD [])[i * 4 + 3]? = some a → a ≤ SPRAY_ALPHA_THRESHOLD →
          final[i]? = some 255) := by
  refine ⟨_, _, _, savedImages_quantize_path env filename image qbuf qpal himg hpath hqb hqp,
    rfl, rfl, markerPalette_entry255 qpal hpal, ?_⟩
  intro ht i a hi hlen ha hle
  have hi2 : i < (wrap32 ((CL_LoadAndPrepareImage env filename 0 0 (isBmp filename)).width *
      (CL_LoadAndPrepareImage env filename 0 0 (isBmp filename)).height)).toNat := hi
  have halpha : alphaByte (image.buffer.getD []) i ≤ SPRAY_ALPHA_THRESHOLD := by
    unfold alphaByte
    rw [List.getD_eq_getElem?_getD, ha]
    exact hle
  show (quantIndices image _ qbuf)[i]? = some 255
  rw [quantIndices_getElem?, if_pos ⟨ht, hi2, halpha⟩, List.getElem?_eq_getElem hlen]
  rfl

/-- A run of the quantize path on the sample RGBA image: the sample quantizer's
palette has 768 bytes, all 9. -/
theorem transparency_marker_witness :
    ((CL_LoadAndPrepareImage sampleEnv "spray.tga" 0 0 (isBmp "spray.tga")).image
        = some sampleRGBA ∧
      isIndexedImg "spray.tga" sampleRGBA = false ∧
      (sampleEnv.Image_Quantize (quantInput sampleRGBA)).buffer = some sampleQuantBuffer ∧
      (sampleEnv.Image_Quantize (quantInput sampleRGBA)).palette = some sampleQuantPalette ∧
      SPRAY_PALETTE_BYTES ≤ sampleQuantPalette.length) ∧
    ∃ (d : rgbdata_t) (pal final : List Nat),
      savedImages (CL_ConvertImageToWAD3 sampleEnv "spray.tga").2 = [d] ∧
      d.palette = some pal ∧ d.buffer = some final ∧
      (pal[255 * 3 + 0]? = some 0 ∧ pal[255 * 3 + 1]? = some 0 ∧ pal[255 * 3 + 2]? = some 255) ∧
      (sampleRGBA.type = pixformat_t.PF_RGBA_32 →
        ∀ i a : Nat, i < (wrap32 (d.width * d.height)).toNat → i < sampleQuantBuffer.length →
          (sampleRGBA.buffer.getD [])[i * 4 + 3]? = some a → a ≤ SPRAY_ALPHA_THRESHOLD →
          final[i]? = some 255) :=
  ⟨⟨by rfl, by rfl, by rfl, by rfl, le_of_eq (List.length_replicate 768 9).symm⟩,
    transparency_marker sampleEnv "spray.tga" sampleRGBA sampleQuantBuffer sampleQuantPalette
      (by rfl) (by rfl) (by rfl) (by rfl) (le_of_eq (List.length_replicate 768 9).symm)⟩

/-- C7 (Indexed-reuse fidelity): when the indexed-reuse path is taken, the
index buffer handed to the writer is the normalized image's pixel buffer
byte-for-byte (so an index 255 of the source stays 255: no remap, no
alpha-driven assignment), and the descriptor's gradient-decal flag is set. -/
theorem indexed_reuse_fidelity (env : Externals) (filename : String) (image : rgbdata_t)
    (himg : (CL_LoadAndPrepareImage env filename 0 0 (isBmp filename)).image = some image)
    (hpath : isIndexedImg filename image = true) :
    ∃ d : rgbdata_t,
      savedImages (CL_ConvertImageToWAD3 env filename).2 = [d] ∧
      d.buffer = image.buffer ∧
      (∀ i : Nat, (image.buffer.getD [])[i]? = some 255 → (d.buffer.getD [])[i]? = some 255) ∧
      d.flags = 0 ||| env.IMAGE_GRADIENT_DECAL ∧
      d.flags &&& env.IMAGE_GRADIENT_DECAL = env.IMAGE_GRADIENT_DECAL := by
  refine ⟨_, savedImages_indexed_path env filename image himg hpath, rfl, fun i h => h, rfl, ?_⟩
  show (0 ||| env.IMAGE_GRADIENT_DECAL) &&& env.IMAGE_GRADIENT_DECAL = env.IMAGE_GRADIENT_DECAL
  rw [Nat.zero_or, Nat.and_self]

/-- A run of the indexed-reuse path on the sample Indexed8-RGBA image, whose
pixel 255 has index 255. -/
theorem indexed_reuse_fidelity_witness :
    ((CL_LoadAndPrepareImage sampleEnv "logo.BMP" 0 0 (isBmp "logo.BMP")).image
        = some sampleIndexed32 ∧
      isIndexedImg "logo.BMP" sampleIndexed32 = true) ∧
    ∃ d : rgbdata_t,
      savedImages (CL_ConvertImageToWAD3 sampleEnv "logo.BMP").2 = [d] ∧
      d.buffer = sampleIndexed32.buffer ∧
      (∀ i : Nat, (sampleIndexed32.buffer.getD [])[i]? = some 255 →
        (d.buffer.getD [])[i]? = some 255) ∧
      d.flags = 0 ||| sampleEnv.IMAGE_GRADIENT_DECAL ∧
      d.flags &&& sampleEnv.IMAGE_GRADIENT_DECAL = sampleEnv.IMAGE_GRADIENT_DECAL :=
  ⟨⟨by rfl, by rfl⟩,
    indexed_reuse_fidelity sampleEnv "logo.BMP" sampleIndexed32 (by rfl) (by rfl)⟩

/-- Indexing into the concatenation of three-element chunks. -/
theorem flatMap_three_getElem? (f : Nat → List Nat) (hf : ∀ j, (f j).length = 3)
    (l : List Nat) (i k : Nat) (hk : k < 3) :
    (l.flatMap f)[3 * i + k]? = (l[i]?).bind (fun j => (f j)[k]?) := by
  induction l generalizing i with
  | nil => simp
  | cons x xs ih =>
    rw [List.flatMap_cons]
    cases i with
    | zero =>
      rw [List.getElem?_append_left (by rw [hf]; omega)]
      simp
    | succ i =>
      rw [List.getElem?_append_right (by rw [hf]; omega), hf]
      have e : 3 * (i + 1) + k - 3 = 3 * i + k := by omega
      rw [e, ih i]
      simp

/-- Byte 3i+k of the palette built at lines 143-148 is the source byte 4i+k
(read as 0 past the end of the source). -/
theorem indexedPalette_getElem? (src : List Nat) (i k : Nat) (hi : i < 256) (hk : k < 3) :
    (indexedPalette src)[3 * i + k]? = some (src.getD (i * 4 + k) 0) := by
  unfold indexedPalette
  rw [flatMap_three_getElem?
      (fun i => [src.getD (i * 4 + 0) 0, src.getD (i * 4 + 1) 0, src.getD (i * 4 + 2) 0])
      (fun j => rfl) _ i k hk, List.getElem?_range hi]
  have hk3 : k = 0 ∨ k = 1 ∨ k = 2 := by omega
  rcases hk3 with rfl | rfl | rfl <;> rfl

/-- The half of the indexed-reuse palette copy that holds: for a source palette
of 1024 bytes (Indexed8-RGBA) the output entry i is the (R, G, B) of the source
entry i, the alpha byte dropped. -/
theorem indexed_palette_copy_rgba (env : Externals) (filename : String) (image : rgbdata_t)
    (src : List Nat)
    (himg : (CL_LoadAndPrepareImage env filename 0 0 (isBmp filename)).image = some image)
    (hpath : isIndexedImg filename image = true)
    (hsrc : image.palette = some src) (hlen : src.length = 1024) :
    ∃ (d : rgbdata_t) (pal : List Nat),
      savedImages (CL_ConvertImageToWAD3 env filename).2 = [d] ∧ d.palette = some pal ∧
      ∀ i : Nat, i < 256 →
        pal[3 * i + 0]? = src[4 * i + 0]? ∧ pal[3 * i + 1]? = src[4 * i + 1]? ∧
        pal[3 * i + 2]? = src[4 * i + 2]? := by
  refine ⟨_, _, savedImages_indexed_path env filename image himg hpath, rfl, ?_⟩
  intro i hi
  rw [hsrc]
  simp only [Option.getD_some]
  refine ⟨?_, ?_, ?_⟩
  · rw [indexedPalette_getElem? src i 0 hi (by decide), List.getD_eq_getElem?_getD,
      List.getElem?_eq_getElem (by omega), List.getElem?_eq_getElem (by omega)]
    simp [Nat.mul_comm]
  · rw [indexedPalette_getElem? src i 1 hi (by decide), List.getD_eq_getElem?_getD,
      List.getElem?_eq_getElem (by omega), List.getElem?_eq_getElem (by omega)]
    simp [Nat.mul_comm]
  · rw [indexedPalette_getElem? src i 2 hi (by decide), List.getD_eq_getElem?_getD,
      List.getElem?_eq_getElem (by omega), List.getElem?_eq_getElem (by omega)]
    simp [Nat.mul_comm]

set_option maxRecDepth 100000 in
/-- C8 (Indexed-reuse palette copy), failing input: a .bmp file decoded as an
Indexed8-RGB image, whose 768-byte palette has entry i = (i, i, i). The run takes
the indexed-reuse path; lines 145-147 read the source with stride 4 whatever the
format, so output entry 1 is the source bytes 4, 5, 6 = (1, 1, 2) and output
entry 191 is the source bytes 764, 765, 766 = (254, 255, 255), where the source
entries are (1, 1, 1) and (191, 191, 191). From entry 192 on the reads are past
the end of the 768 bytes. -/
theorem indexed24_palette_misread :
    ((CL_LoadAndPrepareImage sampleEnv "pal24.bmp" 0 0 (isBmp "pal24.bmp")).image
        = some sampleIndexed24 ∧
      isIndexedImg "pal24.bmp" sampleIndexed24 = true ∧
      sampleIndexed24.type = pixformat_t.PF_INDEXED_24) ∧
    ∃ (src : List Nat) (d : rgbdata_t) (pal : List Nat),
      sampleIndexed24.palette = some src ∧ src.length = 768 ∧
      savedImages (CL_ConvertImageToWAD3 sampleEnv "pal24.bmp").2 = [d] ∧
      d.palette = some pal ∧
      [src[3]?, src[4]?, src[5]?] = [some 1, some 1, some 1] ∧
      [pal[3]?, pal[4]?, pal[5]?] = [some 1, some 1, some 2] ∧
      [src[573]?, src[574]?, src[575]?] = [some 191, some 191, some 191] ∧
      [pal[573]?, pal[574]?, pal[575]?] = [some 254, some 255, some 255] ∧
      768 ≤ 192 * 4 + 0 := by
  refine ⟨⟨by rfl, by rfl, by rfl⟩, _, _, _, rfl, by decide,
    savedImages_indexed_path sampleEnv "pal24.bmp" sampleIndexed24 (by rfl) (by rfl), rfl,
    by decide, by decide, by decide, by decide, by decide⟩

/-! ### The normalizer, case by case -/

theorem prepared_decode_fail (env : Externals) (filename : String) (w h : Int) (k : Bool)
    (hload : env.FS_LoadImage filename k = none) :
    CL_LoadAndPrepareImage env filename w h k =
      ⟨none, Obj.decoded, w, h, [Event.load filename k]⟩ := by
  unfold CL_LoadAndPrepareImage
  rw [hload]

theorem prepared_native (env : Externals) (filename : String) (w h : Int) (k : Bool)
    (decoded : rgbdata_t) (hload : env.FS_LoadImage filename k = some decoded)
    (hfit : ¬ ((CL_AdjustSprayDimensions decoded.width decoded.height).1 ≠ decoded.width ∨
      (CL_AdjustSprayDimensions decoded.width decoded.height).2 ≠ decoded.height)) :
    CL_LoadAndPrepareImage env filename w h k =
      ⟨some decoded, Obj.decoded, (CL_AdjustSprayDimensions decoded.width decoded.height).1,
        (CL_AdjustSprayDimensions decoded.width decoded.height).2, [Event.load filename k]⟩ := by
  unfold CL_LoadAndPrepareImage
  rw [hload]
  dsimp only
  rw [if_neg hfit]

theorem prepared_resample_fail (env : Externals) (filename : String) (w h : Int) (k : Bool)
    (decoded : rgbdata_t) (hload : env.FS_LoadImage filename k = some decoded)
    (hfit : (CL_AdjustSprayDimensions decoded.width decoded.height).1 ≠ decoded.width ∨
      (CL_AdjustSprayDimensions decoded.width decoded.height).2 ≠ decoded.height)
    (hres : env.Image_ResampleInternal decoded.buffer decoded.width decoded.height
      (CL_AdjustSprayDimensions decoded.width decoded.height).1
      (CL_AdjustSprayDimensions decoded.width decoded.height).2 decoded.type = none) :
    CL_LoadAndPrepareImage env filename w h k =
      ⟨none, Obj.decoded, (CL_AdjustSprayDimensions decoded.width decoded.height).1,
        (CL_AdjustSprayDimensions decoded.width decoded.height).2,
        [Event.load filename k, Event.resample, Event.freeImage Obj.decoded]⟩ := by
  unfold CL_LoadAndPrepareImage
  rw [hload]
  dsimp only
  rw [if_pos hfit, hres]

theorem prepared_resampled (env : Externals) (filename : String) (w h : Int) (k : Bool)
    (decoded : rgbdata_t) (rb : List Nat) (hload : env.FS_LoadImage filename k = some decoded)
    (hfit : (CL_AdjustSprayDimensions decoded.width decoded.height).1 ≠ decoded.width ∨
      (CL_AdjustSprayDimensions decoded.width decoded.height).2 ≠ decoded.height)
    (hres : env.Image_ResampleInternal decoded.buffer decoded.width decoded.height
      (CL_AdjustSprayDimensions decoded.width decoded.height).1
      (CL_AdjustSprayDimensions decoded.width decoded.height).2 decoded.type = some rb) :
    CL_LoadAndPrepareImage env filename w h k =
      ⟨some (scaledImage decoded (CL_AdjustSprayDimensions decoded.width decoded.height).1
          (CL_AdjustSprayDimensions decoded.width decoded.height).2 k rb),
        Obj.scaled, (CL_AdjustSprayDimensions decoded.width decoded.height).1,
        (CL_AdjustSprayDimensions decoded.width decoded.height).2,
        [Event.load filename k, Event.resample,
            Event.malloc Obj.scaled, Event.malloc Obj.scaled_buffer] ++
          (if k = true ∧ decoded.palette.isSome then [Event.malloc Obj.scaled_palette]
            else []) ++
          [Event.freeImage Obj.decoded]⟩ := by
  unfold CL_LoadAndPrepareImage
  rw [hload]
  dsimp only
  rw [if_pos hfit, hres]

/-- The normalizer returns an image exactly when the decode succeeds and the
resample, where one is needed, succeeds; the image is then the decoded one or
the resized copy, and *width, *height hold the fitted size. -/
theorem prepared_image_iff (env : Externals) (filename : String) (w h : Int) (k : Bool)
    (image : rgbdata_t) :
    (CL_LoadAndPrepareImage env filename w h k).image = some image ↔
      ∃ decoded : rgbdata_t, env.FS_LoadImage filename k = some decoded ∧
        (((CL_AdjustSprayDimensions decoded.width decoded.height).1 = decoded.width ∧
            (CL_AdjustSprayDimensions decoded.width decoded.height).2 = decoded.height ∧
            image = decoded) ∨
          (((CL_AdjustSprayDimensions decoded.width decoded.height).1 ≠ decoded.width ∨
              (CL_AdjustSprayDimensions decoded.width decoded.height).2 ≠ decoded.height) ∧
            ∃ rb : List Nat,
              env.Image_ResampleInternal decoded.buffer decoded.width decoded.height
                (CL_AdjustSprayDimensions decoded.width decoded.height).1
                (CL_AdjustSprayDimensions decoded.width decoded.height).2 decoded.type
                = some rb ∧
              image = scaledImage decoded
                (CL_AdjustSprayDimensions decoded.width decoded.height).1
                (CL_AdjustSprayDimensions decoded.width decoded.height).2 k rb)) := by
  rcases hload : env.FS_LoadImage filename k with _ | decoded
  · rw [prepared_decode_fail env filename w h k hload]
    constructor
    · intro hc
      exact absurd hc (by simp)
    · rintro ⟨d, hd, _⟩
      exact absurd hd (by simp)
  · by_cases hfit : (CL_AdjustSprayDimensions decoded.width decoded.height).1 ≠ decoded.width ∨
        (CL_AdjustSprayDimensions decoded.width decoded.height).2 ≠ decoded.height
    · rcases hres : env.Image_ResampleInternal decoded.buffer decoded.width decoded.height
          (CL_AdjustSprayDimensions decoded.width decoded.height).1
          (CL_AdjustSprayDimensions decoded.width decoded.height).2 decoded.type with _ | rb
      · rw [prepared_resample_fail env filename w h k decoded hload hfit hres]
        constructor
        · intro hc
          exact absurd hc (by simp)
        · rintro ⟨d, hd, hcase⟩
          cases hd
          rcases hcase with ⟨h1, h2, _⟩ | ⟨_, rb, hrb, _⟩
          · exact absurd hfit (by simp [h1, h2])
          · rw [hres] at hrb
            exact absurd hrb (by simp)
      · rw [prepared_resampled env filename w h k decoded rb hload hfit hres]
        constructor
        · intro hc
          exact ⟨decoded, rfl, Or.inr ⟨hfit, rb, hres, (Option.some.inj hc).symm⟩⟩
        · rintro ⟨d, hd, hcase⟩
          cases hd
          rcases hcase with ⟨h1, h2, _⟩ | ⟨_, rb2, hrb, himg⟩
          · exact absurd hfit (by simp [h1, h2])
          · rw [hres] at hrb
            cases hrb
            rw [himg]
    · rw [prepared_native env filename w h k decoded hload hfit]
      have h1 : (CL_AdjustSprayDimensions decoded.width decoded.height).1 = decoded.width := by
        by_contra hne; exact hfit (Or.inl hne)
      have h2 : (CL_AdjustSprayDimensions decoded.width decoded.height).2 = decoded.height := by
        by_contra hne; exact hfit (Or.inr hne)
      constructor
      · intro hc
        exact ⟨decoded, rfl, Or.inl ⟨h1, h2, (Option.some.inj hc).symm⟩⟩
      · rintro ⟨d, hd, hcase⟩
        cases hd
        rcases hcase with ⟨_, _, himg⟩ | ⟨hne, _⟩
        · rw [himg]
        · exact absurd hne hfit

/-- After a successful decode, *width and *height hold the fitted size of the
decoded image, whatever happens next. -/
theorem prepared_dims (env : Externals) (filename : String) (w h : Int) (k : Bool)
    (decoded : rgbdata_t) (hload : env.FS_LoadImage filename k = some decoded) :
    (CL_LoadAndPrepareImage env filename w h k).width
        = (CL_AdjustSprayDimensions decoded.width decoded.height).1 ∧
    (CL_LoadAndPrepareImage env filename w h k).height
        = (CL_AdjustSprayDimensions decoded.width decoded.height).2 := by
  by_cases hfit : (CL_AdjustSprayDimensions decoded.width decoded.height).1 ≠ decoded.width ∨
      (CL_AdjustSprayDimensions decoded.width decoded.height).2 ≠ decoded.height
  · rcases hres : env.Image_ResampleInternal decoded.buffer decoded.width decoded.height
        (CL_AdjustSprayDimensions decoded.width decoded.height).1
        (CL_AdjustSprayDimensions decoded.width decoded.height).2 decoded.type with _ | rb
    · rw [prepared_resample_fail env filename w h k decoded hload hfit hres]
      exact ⟨rfl, rfl⟩
    · rw [prepared_resampled env filename w h k decoded rb hload hfit hres]
      exact ⟨rfl, rfl⟩
  · rw [prepared_native env filename w h k decoded hload hfit]
    exact ⟨rfl, rfl⟩

/-- Without an image the conversion returns false right after the normalizer. -/
theorem convert_no_image (env : Externals) (filename : String)
    (hnone : (CL_LoadAndPrepareImage env filename 0 0 (isBmp filename)).image = none) :
    CL_ConvertImageToWAD3 env filename =
      (false, (CL_LoadAndPrepareImage env filename 0 0 (isBmp filename)).trace) := by
  simp only [CL_ConvertImageToWAD3, hnone]

/-- The run of the quantize path when the quantizer leaves no buffer or no
palette: the cleanup of lines 198-203. -/
theorem convert_quantize_fail (env : Externals) (filename : String) (image : rgbdata_t)
    (himg : (CL_LoadAndPrepareImage env filename 0 0 (isBmp filename)).image = some image)
    (hpath : isIndexedImg filename image = false)
    (hq : (env.Image_Quantize (quantInput image)).buffer = none ∨
      (env.Image_Quantize (quantInput image)).palette = none) :
    CL_ConvertImageToWAD3 env filename =
      (false,
        (CL_LoadAndPrepareImage env filename 0 0 (isBmp filename)).trace ++
          [Event.malloc Obj.quant, Event.malloc Obj.quant_buffer, Event.quantize,
            Event.freeImage (CL_LoadAndPrepareImage env filename 0 0 (isBmp filename)).owner,
            Event.freeImage Obj.quant]) := by
  simp only [CL_ConvertImageToWAD3, himg, hpath]
  rcases hb : (env.Image_Quantize (quantInput image)).buffer with _ | qbuf
  · simp
  · rcases hp : (env.Image_Quantize (quantInput image)).palette with _ | qpal
    · simp
    · rcases hq with h | h
      · rw [hb] at h; exact absurd h (by simp)
      · rw [hp] at h; exact absurd h (by simp)

/-- With a normalized image in hand, the conversion returns true exactly when
the path taken yields a descriptor (always on the indexed-reuse path, on the
quantize path when the quantizer leaves both a buffer and a palette) and the
writer returns true on it. -/
theorem convert_result_of_image (env : Externals) (filename : String) (image : rgbdata_t)
    (himg : (CL_LoadAndPrepareImage env filename 0 0 (isBmp filename)).image = some image) :
    (CL_ConvertImageToWAD3 env filename).1 = true ↔
      ∃ d : rgbdata_t,
        ((isIndexedImg filename image = true ∧
            d = tempImage env (CL_LoadAndPrepareImage env filename 0 0 (isBmp filename)).width
              (CL_LoadAndPrepareImage env filename 0 0 (isBmp filename)).height
              image.buffer (indexedPalette (image.palette.getD [])) true) ∨
          (isIndexedImg filename image = false ∧
            ∃ qbuf qpal : List Nat,
              (env.Image_Quantize (quantInput image)).buffer = some qbuf ∧
              (env.Image_Quantize (quantInput image)).palette = some qpal ∧
              d = tempImage env (CL_LoadAndPrepareImage env filename 0 0 (isBmp filename)).width
                (CL_LoadAndPrepareImage env filename 0 0 (isBmp filename)).height
                (some (quantIndices image
                  (wrap32 ((CL_LoadAndPrepareImage env filename 0 0 (isBmp filename)).width *
                    (CL_LoadAndPrepareImage env filename 0 0 (isBmp filename)).height)).toNat
                  qbuf))
                (markerPalette qpal) false)) ∧
        env.Image_SaveWAD SPRAY_FILENAME d = true := by
  rcases hpath : isIndexedImg filename image with _ | _
  · rcases hb : (env.Image_Quantize (quantInput image)).buffer with _ | qbuf
    · rw [convert_quantize_fail env filename image himg hpath (Or.inl hb)]
      constructor
      · intro hc
        exact absurd hc (by simp)
      · rintro ⟨d, ⟨hc, _⟩ | ⟨_, qb, qp, hc, _⟩, _⟩
        · exact absurd hc (by simp)
        · exact absurd hc (by simp)
    · rcases hp : (env.Image_Quantize (quantInput image)).palette with _ | qpal
      · rw [convert_quantize_fail env filename image himg hpath (Or.inr hp)]
        constructor
        · intro hc
          exact absurd hc (by simp)
        · rintro ⟨d, ⟨hc, _⟩ | ⟨_, qb, qp, _, hc, _⟩, _⟩
          · exact absurd hc (by simp)
          · exact absurd hc (by simp)
      · rw [convert_quantize_path env filename image qbuf qpal himg hpath hb hp]
        constructor
        · intro hc
          exact ⟨_, Or.inr ⟨rfl, qbuf, qpal, rfl, rfl, rfl⟩, hc⟩
        · rintro ⟨d, ⟨hc, _⟩ | ⟨_, qb, qp, h1, h2, hd⟩, hw⟩
          · exact absurd hc (by simp)
          · cases h1
            cases h2
            rw [hd] at hw
            exact hw
  · rw [convert_indexed_path env filename image himg hpath]
    constructor
    · intro hc
      exact ⟨_, Or.inl ⟨rfl, rfl⟩, hc⟩
    · rintro ⟨d, ⟨_, hd⟩ | ⟨hc, _⟩, hw⟩
      · rw [hd] at hw
        exact hw
      · exact absurd hc (by simp)

/-- C9 (Result of the public operation): CL_ConvertImageToWAD3 returns true if
and only if the decode succeeds, the resample (needed when the fitted size
differs from the native size) succeeds, the quantizer (when the quantize path is
taken) leaves both a buffer and a palette, and the writer returns true on the
descriptor assembled from them; in every other case it returns false. -/
theorem convert_result (env : Externals) (filename : String) :
    (CL_ConvertImageToWAD3 env filename).1 = true ↔
      ∃ decoded image d : rgbdata_t,
        env.FS_LoadImage filename (isBmp filename) = some decoded ∧
        (((CL_AdjustSprayDimensions decoded.width decoded.height).1 = decoded.width ∧
            (CL_AdjustSprayDimensions decoded.width decoded.height).2 = decoded.height ∧
            image = decoded) ∨
          (((CL_AdjustSprayDimensions decoded.width decoded.height).1 ≠ decoded.width ∨
              (CL_AdjustSprayDimensions decoded.width decoded.height).2 ≠ decoded.height) ∧
            ∃ rb : List Nat,
              env.Image_ResampleInternal decoded.buffer decoded.width decoded.height
                (CL_AdjustSprayDimensions decoded.width decoded.height).1
                (CL_AdjustSprayDimensions decoded.width decoded.height).2 decoded.type
                = some rb ∧
              image = scaledImage decoded
                (CL_AdjustSprayDimensions decoded.width decoded.height).1
                (CL_AdjustSprayDimensions decoded.width decoded.height).2
                (isBmp filename) rb)) ∧
        ((isIndexedImg filename image = true ∧
            d = tempImage env (CL_AdjustSprayDimensions decoded.width decoded.height).1
              (CL_AdjustSprayDimensions decoded.width decoded.height).2
              image.buffer (indexedPalette (image.palette.getD [])) true) ∨
          (isIndexedImg filename image = false ∧
            ∃ qbuf qpal : List Nat,
              (env.Image_Quantize (quantInput image)).buffer = some qbuf ∧
              (env.Image_Quantize (quantInput image)).palette = some qpal ∧
              d = tempImage env (CL_AdjustSprayDimensions decoded.width decoded.height).1
                (CL_AdjustSprayDimensions decoded.width decoded.height).2
                (some (quantIndices image
                  (wrap32 ((CL_AdjustSprayDimensions decoded.width decoded.height).1 *
                    (CL_AdjustSprayDimensions decoded.width decoded.height).2)).toNat qbuf))
                (markerPalette qpal) false)) ∧
        env.Image_SaveWAD SPRAY_FILENAME d = true := by
  constructor
  · intro hret
    rcases himg : (CL_LoadAndPrepareImage env filename 0 0 (isBmp filename)).image
      with _ | image
    · rw [convert_no_image env filename himg] at hret
      exact absurd hret (by simp)
    · obtain ⟨decoded, hload, hcase⟩ :=
        (prepared_image_iff env filename 0 0 (isBmp filename) image).mp himg
      obtain ⟨hw, hh⟩ := prepared_dims env filename 0 0 (isBmp filename) decoded hload
      obtain ⟨d, hd, hsave⟩ := (convert_result_of_image env filename image himg).mp hret
      rw [hw, hh] at hd
      exact ⟨decoded, image, d, hload, hcase, hd, hsave⟩
  · rintro ⟨decoded, image, d, hload, hcase, hd, hsave⟩
    have himg : (CL_LoadAndPrepareImage env filename 0 0 (isBmp filename)).image
        = some image :=
      (prepared_image_iff env filename 0 0 (isBmp filename) image).mpr
        ⟨decoded, hload, hcase⟩
    obtain ⟨hw, hh⟩ := prepared_dims env filename 0 0 (isBmp filename) decoded hload
    refine (convert_result_of_image env filename image himg).mpr ⟨d, ?_, hsave⟩
    rw [hw, hh]
    exact hd

/-- Two sample runs: a TrueColorAlpha source converts, a missing file does not,
and only the first reaches the writer. -/
theorem convert_result_samples :
    (CL_ConvertImageToWAD3 sampleEnv "spray.tga").1 = true ∧
    (CL_ConvertImageToWAD3 sampleEnv "missing.tga").1 = false ∧
    (savedImages (CL_ConvertImageToWAD3 sampleEnv "spray.tga").2).length = 1 ∧
    (CL_ConvertImageToWAD3 sampleEnv "missing.tga").2 = [Event.load "missing.tga" false] := by
  refine ⟨by rfl, by rfl, by rfl, by rfl⟩

/-- C10 (No write on failure): the writer is invoked at most once; it is never
invoked in a run in which the decoder fails, the resampler fails, or the
quantizer leaves no buffer or no palette; and when it is invoked, the call is
the last one of the run and its argument is the descriptor of lines 186-194
with width, height, type, index buffer, size, palette and flag all set. -/
theorem no_write_on_failure (env : Externals) (filename : String) :
    (savedImages (CL_ConvertImageToWAD3 env filename).2).length ≤ 1 ∧
    (env.FS_LoadImage filename (isBmp filename) = none →
      savedImages (CL_ConvertImageToWAD3 env filename).2 = []) ∧
    (∀ decoded : rgbdata_t, env.FS_LoadImage filename (isBmp filename) = some decoded →
      ((CL_AdjustSprayDimensions decoded.width decoded.height).1 ≠ decoded.width ∨
        (CL_AdjustSprayDimensions decoded.width decoded.height).2 ≠ decoded.height) →
      env.Image_ResampleInternal decoded.buffer decoded.width decoded.height
        (CL_AdjustSprayDimensions decoded.width decoded.height).1
        (CL_AdjustSprayDimensions decoded.width decoded.height).2 decoded.type = none →
      savedImages (CL_ConvertImageToWAD3 env filename).2 = []) ∧
    (∀ image : rgbdata_t,
      (CL_LoadAndPrepareImage env filename 0 0 (isBmp filename)).image = some image →
      isIndexedImg filename image = false →
      ((env.Image_Quantize (quantInput image)).buffer = none ∨
        (env.Image_Quantize (quantInput image)).palette = none) →
      savedImages (CL_ConvertImageToWAD3 env filename).2 = []) ∧
    (∀ d : rgbdata_t, d ∈ savedImages (CL_ConvertImageToWAD3 env filename).2 →
      (CL_ConvertImageToWAD3 env filename).2.getLast? = some (Event.save SPRAY_FILENAME d) ∧
      ∃ (indexed : Option (List Nat)) (palette : List Nat) (flag : Bool),
        d = tempImage env (CL_LoadAndPrepareImage env filename 0 0 (isBmp filename)).width
          (CL_LoadAndPrepareImage env filename 0 0 (isBmp filename)).height
          indexed palette flag) := by
  have hfail : ∀ image : rgbdata_t,
      (CL_LoadAndPrepareImage env filename 0 0 (isBmp filename)).image = some image →
      isIndexedImg filename image = false →
      ((env.Image_Quantize (quantInput image)).buffer = none ∨
        (env.Image_Quantize (quantInput image)).palette = none) →
      savedImages (CL_ConvertImageToWAD3 env filename).2 = [] := by
    intro image himg hpath hq
    rw [convert_quantize_fail env filename image himg hpath hq]
    simp only [savedImages_append, savedImages_prepared]
    rfl
  have hnone : (CL_LoadAndPrepareImage env filename 0 0 (isBmp filename)).image = none →
      savedImages (CL_ConvertImageToWAD3 env filename).2 = [] := by
    intro h
    rw [convert_no_image env filename h]
    exact savedImages_prepared env filename 0 0 (isBmp filename)
  have hcases : savedImages (CL_ConvertImageToWAD3 env filename).2 = [] ∨
      ∃ (indexed : Option (List Nat)) (palette : List Nat) (flag : Bool),
        savedImages (CL_ConvertImageToWAD3 env filename).2 =
          [tempImage env (CL_LoadAndPrepareImage env filename 0 0 (isBmp filename)).width
            (CL_LoadAndPrepareImage env filename 0 0 (isBmp filename)).height
            indexed palette flag] ∧
        (CL_ConvertImageToWAD3 env filename).2.getLast? =
          some (Event.save SPRAY_FILENAME
            (tempImage env (CL_LoadAndPrepareImage env filename 0 0 (isBmp filename)).width
              (CL_LoadAndPrepareImage env filename 0 0 (isBmp filename)).height
              indexed palette flag)) := by
    rcases himg : (CL_LoadAndPrepareImage env filename 0 0 (isBmp filename)).image
      with _ | image
    · exact Or.inl (hnone himg)
    · rcases hpath : isIndexedImg filename image with _ | _
      · rcases hb : (env.Image_Quantize (quantInput image)).buffer with _ | qbuf
        · exact Or.inl (hfail image himg hpath (Or.inl hb))
        · rcases hp : (env.Image_Quantize (quantInput image)).palette with _ | qpal
          · exact Or.inl (hfail image himg hpath (Or.inr hp))
          · refine Or.inr ⟨_, _, _,
              savedImages_quantize_path env filename image qbuf qpal himg hpath hb hp, ?_⟩
            rw [convert_quantize_path env filename image qbuf qpal himg hpath hb hp]
            simp
      · refine Or.inr ⟨_, _, _, savedImages_indexed_path env filename image himg hpath, ?_⟩
        rw [convert_indexed_path env filename image himg hpath]
        simp
  refine ⟨?_, ?_, ?_, hfail, ?_⟩
  · rcases hcases with h | ⟨_, _, _, h, _⟩ <;> rw [h] <;> simp
  · intro hload
    apply hnone
    rw [prepared_decode_fail env filename 0 0 (isBmp filename) hload]
  · intro decoded hload hfit hres
    apply hnone
    rw [prepared_resample_fail env filename 0 0 (isBmp filename) decoded hload hfit hres]
  · intro d hd
    rcases hcases with h | ⟨indexed, palette, flag, h, hlast⟩
    · rw [h] at hd
      exact absurd hd (by simp)
    · rw [h] at hd
      have hdeq := List.mem_singleton.mp hd
      rw [hdeq]
      exact ⟨hlast, indexed, palette, flag, rfl⟩

/-! ### The fitter never enlarges -/

/-- A product that fits a non-negative 32-bit int is not changed by the
reduction. -/
theorem wrap32_of_range (x : Int) (h0 : 0 ≤ x) (h1 : x < 2147483648) : wrap32 x = x := by
  unfold wrap32
  omega

/-- The loop returns the fallback or a size within the source width and the
first candidate height. -/
theorem fitLoop_le (width : Int) (aspect : F32) (k : Nat) :
    fitLoop width aspect k = (16, 16) ∨
    (16 ≤ (fitLoop width aspect k).1 ∧ (fitLoop width aspect k).1 ≤ width ∧
      16 ≤ (fitLoop width aspect k).2 ∧ (fitLoop width aspect k).2 ≤ 16 * (k : Int)) := by
  rcases fitLoop_spec width aspect k with ⟨j, hj1, hjk, hpj, heq, _⟩ | ⟨_, heq⟩
  · right
    rw [heq]
    obtain ⟨h16, hle, _⟩ := hpj
    have hjk2 : (j : Int) ≤ (k : Int) := by exact_mod_cast hjk
    have hj2 : (1 : Int) ≤ (j : Int) := by exact_mod_cast hj1
    exact ⟨h16, hle, by simp only; omega, by simp only; omega⟩
  · exact Or.inl heq

/-- For a positive height the fitter returns the fallback or a size of at least
16x16 within the source size. -/
theorem fit_le (w h : Int) (hh : 0 < h) :
    CL_AdjustSprayDimensions w h = (16, 16) ∨
    (16 ≤ (CL_AdjustSprayDimensions w h).1 ∧ (CL_AdjustSprayDimensions w h).1 ≤ w ∧
      16 ≤ (CL_AdjustSprayDimensions w h).2 ∧ (CL_AdjustSprayDimensions w h).2 ≤ h) := by
  have hk := first_candidate_index h hh
  rcases fitLoop_le w (F32.div (F32.ofInt w) (F32.ofInt h)) (h.tdiv 16).toNat with h1 | h1
  · exact Or.inl h1
  · right
    obtain ⟨a, b, c, d⟩ := h1
    refine ⟨a, b, c, ?_⟩
    have d2 : (CL_AdjustSprayDimensions w h).2 ≤ 16 * (((h.tdiv 16).toNat : Nat) : Int) := d
    rw [hk] at d2
    omega

/-- C15 (Fit never upscales): for every source (w, h) with w ≥ 16 and h ≥ 16
the fitter returns (W, H) with W ≤ w and H ≤ h; for a positive source the
result exceeds the source in a dimension only when that source dimension is
below 16, and the result is then the fallback 16x16. -/
theorem fit_never_upscales (w h : Int) (_hw : 0 < w) (hh : 0 < h) :
    (16 ≤ w → 16 ≤ h →
      (CL_AdjustSprayDimensions w h).1 ≤ w ∧ (CL_AdjustSprayDimensions w h).2 ≤ h) ∧
    (w < (CL_AdjustSprayDimensions w h).1 →
      w < 16 ∧ CL_AdjustSprayDimensions w h = (16, 16)) ∧
    (h < (CL_AdjustSprayDimensions w h).2 →
      h < 16 ∧ CL_AdjustSprayDimensions w h = (16, 16)) := by
  rcases fit_le w h hh with h1 | ⟨_, hb, _, hd⟩
  · rw [h1]
    refine ⟨fun a b => ⟨a, b⟩, fun a => ⟨a, rfl⟩, fun a => ⟨a, rfl⟩⟩
  · refine ⟨fun _ _ => ⟨hb, hd⟩, fun a => ?_, fun a => ?_⟩
    · exact absurd a (not_lt.mpr hb)
    · exact absurd a (not_lt.mpr hd)

/-- The sources 200x150 (shrunk to 96x80) and 4000x15 (height below 16, raised
to the fallback height 16). -/
theorem fit_never_upscales_witness :
    ((0 : Int) < 200 ∧ (0 : Int) < 150 ∧ (16 : Int) ≤ 200 ∧ (16 : Int) ≤ 150 ∧
      (CL_AdjustSprayDimensions 200 150).1 ≤ 200 ∧ (CL_AdjustSprayDimensions 200 150).2 ≤ 150) ∧
    ((0 : Int) < 4000 ∧ (0 : Int) < 15 ∧ 15 < (CL_AdjustSprayDimensions 4000 15).2 ∧
      (15 : Int) < 16 ∧ CL_AdjustSprayDimensions 4000 15 = (16, 16)) :=
  ⟨⟨by decide, by decide, by decide, by decide,
      (fit_never_upscales 200 150 (by decide) (by decide)).1 (by decide) (by decide)⟩,
    ⟨by decide, by decide, by decide,
      (fit_never_upscales 4000 15 (by decide) (by decide)).2.2 (by decide)⟩⟩

/-- C16 (Fit is idempotent), failing input: the source 17x660 is fitted to
16x656 (656 * aspect = 16.89, candidate width 16, area 10496), and 16x656 is
fitted to 16x16 by the rounding of line 33 (see C2), so a second application
changes the result. -/
theorem fit_not_idempotent_17_660 :
    ((0 : Int) < 17 ∧ (0 : Int) < 660) ∧
    CL_AdjustSprayDimensions 17 660 = (16, 656) ∧
    CL_AdjustSprayDimensions (CL_AdjustSprayDimensions 17 660).1
      (CL_AdjustSprayDimensions 17 660).2 = (16, 16) ∧
    CL_AdjustSprayDimensions (CL_AdjustSprayDimensions 17 660).1
      (CL_AdjustSprayDimensions 17 660).2 ≠ CL_AdjustSprayDimensions 17 660 := by
  refine ⟨by decide, by decide, by decide, by decide⟩

/-- Where it holds: for a positive source whose area fits an int, the fitter
applied to its own result returns it again, unless that result is one of the two
sizes 16x656 and 16x752 on which the no-op property fails. -/
theorem fit_idempotent_elsewhere (w h : Int) (_hw : 0 < w) (hh : 0 < h)
    (harea : w * h < 2147483648)
    (hne1 : CL_AdjustSprayDimensions w h ≠ (16, 656))
    (hne2 : CL_AdjustSprayDimensions w h ≠ (16, 752)) :
    CL_AdjustSprayDimensions (CL_AdjustSprayDimensions w h).1 (CL_AdjustSprayDimensions w h).2
      = CL_AdjustSprayDimensions w h := by
  rcases fit_le w h hh with h1 | ⟨ha, hb, hc, hd⟩
  · rw [h1]
    decide
  · obtain ⟨m1, m2, _, _, hwrap⟩ :=
      fitLoop_bounds w (F32.div (F32.ofInt w) (F32.ofInt h)) (h.tdiv 16).toNat
    have m1' : (CL_AdjustSprayDimensions w h).1 % 16 = 0 := m1
    have m2' : (CL_AdjustSprayDimensions w h).2 % 16 = 0 := m2
    have hwrap' : wrap32 ((CL_AdjustSprayDimensions w h).1 * (CL_AdjustSprayDimensions w h).2)
        < SPRAY_MAX_SURFACE := hwrap
    have hprod : (CL_AdjustSprayDimensions w h).1 * (CL_AdjustSprayDimensions w h).2 ≤ w * h :=
      Int.mul_le_mul hb hd (by omega) (by omega)
    have hpos : 0 ≤ (CL_AdjustSprayDimensions w h).1 * (CL_AdjustSprayDimensions w h).2 :=
      Int.mul_nonneg (by omega) (by omega)
    rw [wrap32_of_range _ hpos (by omega)] at hwrap'
    exact fit_noop_elsewhere _ _ m1' m2' ha hc hwrap' hne1 hne2

/-! ### Every run, case by case -/

/-- The writer calls of a run: none, or the one of the indexed-reuse path, or
the one of the quantize path. -/
theorem savedImages_cases (env : Externals) (filename : String) :
    savedImages (CL_ConvertImageToWAD3 env filename).2 = [] ∨
    (∃ image : rgbdata_t,
      (CL_LoadAndPrepareImage env filename 0 0 (isBmp filename)).image = some image ∧
      isIndexedImg filename image = true ∧
      savedImages (CL_ConvertImageToWAD3 env filename).2 =
        [tempImage env (CL_LoadAndPrepareImage env filename 0 0 (isBmp filename)).width
          (CL_LoadAndPrepareImage env filename 0 0 (isBmp filename)).height
          image.buffer (indexedPalette (image.palette.getD [])) true]) ∨
    (∃ (image : rgbdata_t) (qbuf qpal : List Nat),
      (CL_LoadAndPrepareImage env filename 0 0 (isBmp filename)).image = some image ∧
      isIndexedImg filename image = false ∧
      (env.Image_Quantize (quantInput image)).buffer = some qbuf ∧
      (env.Image_Quantize (quantInput image)).palette = some qpal ∧
      savedImages (CL_ConvertImageToWAD3 env filename).2 =
        [tempImage env (CL_LoadAndPrepareImage env filename 0 0 (isBmp filename)).width
          (CL_LoadAndPrepareImage env filename 0 0 (isBmp filename)).height
          (some (quantIndices image
            (wrap32 ((CL_LoadAndPrepareImage env filename 0 0 (isBmp filename)).width *
              (CL_LoadAndPrepareImage env filename 0 0 (isBmp filename)).height)).toNat qbuf))
          (markerPalette qpal) false]) := by
  rcases himg : (CL_LoadAndPrepareImage env filename 0 0 (isBmp filename)).image
    with _ | image
  · left
    rw [convert_no_image env filename himg]
    exact savedImages_prepared env filename 0 0 (isBmp filename)
  · rcases hpath : isIndexedImg filename image with _ | _
    · rcases hb : (env.Image_Quantize (quantInput image)).buffer with _ | qbuf
      · left
        rw [convert_quantize_fail env filename image himg hpath (Or.inl hb)]
        simp only [savedImages_append, savedImages_prepared]
        rfl
      · rcases hp : (env.Image_Quantize (quantInput image)).palette with _ | qpal
        · left
          rw [convert_quantize_fail env filename image himg hpath (Or.inr hp)]
          simp only [savedImages_append, savedImages_prepared]
          rfl
        · exact Or.inr (Or.inr ⟨image, qbuf, qpal, rfl, hpath, hb, hp,
            savedImages_quantize_path env filename image qbuf qpal himg hpath hb hp⟩)
    · exact Or.inr (Or.inl ⟨image, rfl, hpath,
        savedImages_indexed_path env filename image himg hpath⟩)

/-- Bytes 0..764 of the palette copied out at lines 179-182 are the
quantizer's. -/
theorem markerPalette_frame (qpal : List Nat) (j : Nat) (hj : j < 255 * 3) :
    (markerPalette qpal)[j]? = qpal[j]? := by
  unfold markerPalette
  have e : SPRAY_PALETTE_BYTES = 768 := rfl
  rw [e, List.getElem?_take_of_lt (by omega), List.getElem?_set_ne (by omega),
    List.getElem?_set_ne (by omega), List.getElem?_set_ne (by omega)]

/-- C17 (Quantize-path palette frame): on the quantize path the output palette
entries 0..254 (bytes 0..764) equal the quantizer's palette entries unchanged;
only entry 255 (bytes 765..767) is overwritten. -/
theorem quantize_palette_frame (env : Externals) (filename : String) (image : rgbdata_t)
    (qbuf qpal : List Nat)
    (himg : (CL_LoadAndPrepareImage env filename 0 0 (isBmp filename)).image = some image)
    (hpath : isIndexedImg filename image = false)
    (hqb : (env.Image_Quantize (quantInput image)).buffer = some qbuf)
    (hqp : (env.Image_Quantize (quantInput image)).palette = some qpal) :
    ∃ (d : rgbdata_t) (pal : List Nat),
      savedImages (CL_ConvertImageToWAD3 env filename).2 = [d] ∧ d.palette = some pal ∧
      ∀ j : Nat, j < 255 * 3 → pal[j]? = qpal[j]? :=
  ⟨_, _, savedImages_quantize_path env filename image qbuf qpal himg hpath hqb hqp, rfl,
    fun j hj => markerPalette_frame qpal j hj⟩

/-- A run of the quantize path on the sample RGBA image. -/
theorem quantize_palette_frame_witness :
    ((CL_LoadAndPrepareImage sampleEnv "spray.tga" 0 0 (isBmp "spray.tga")).image
        = some sampleRGBA ∧
      isIndexedImg "spray.tga" sampleRGBA = false ∧
      (sampleEnv.Image_Quantize (quantInput sampleRGBA)).buffer = some sampleQuantBuffer ∧
      (sampleEnv.Image_Quantize (quantInput sampleRGBA)).palette = some sampleQuantPalette) ∧
    ∃ (d : rgbdata_t) (pal : List Nat),
      savedImages (CL_ConvertImageToWAD3 sampleEnv "spray.tga").2 = [d] ∧
      d.palette = some pal ∧
      ∀ j : Nat, j < 255 * 3 → pal[j]? = sampleQuantPalette[j]? :=
  ⟨⟨by rfl, by rfl, by rfl, by rfl⟩,
    quantize_palette_frame sampleEnv "spray.tga" sampleRGBA sampleQuantBuffer
      sampleQuantPalette (by rfl) (by rfl) (by rfl) (by rfl)⟩

/-- For a source of positive height whose area fits an int, the area of the
fitted size is under the cap as a mathematical product too. -/
theorem fit_area_exact (w h : Int) (hh : 0 < h) (harea : w * h < 2147483648) :
    0 < (CL_AdjustSprayDimensions w h).1 * (CL_AdjustSprayDimensions w h).2 ∧
    (CL_AdjustSprayDimensions w h).1 * (CL_AdjustSprayDimensions w h).2 < SPRAY_MAX_SURFACE ∧
    wrap32 ((CL_AdjustSprayDimensions w h).1 * (CL_AdjustSprayDimensions w h).2)
      = (CL_AdjustSprayDimensions w h).1 * (CL_AdjustSprayDimensions w h).2 := by
  rcases fit_le w h hh with h1 | ⟨ha, hb, hc, hd⟩
  · rw [h1]
    decide
  · obtain ⟨_, _, _, _, hwrap⟩ :=
      fitLoop_bounds w (F32.div (F32.ofInt w) (F32.ofInt h)) (h.tdiv 16).toNat
    have hwrap2 : wrap32 ((CL_AdjustSprayDimensions w h).1 * (CL_AdjustSprayDimensions w h).2)
        < SPRAY_MAX_SURFACE := hwrap
    have hprod : (CL_AdjustSprayDimensions w h).1 * (CL_AdjustSprayDimensions w h).2 ≤ w * h :=
      Int.mul_le_mul hb hd (by omega) (by omega)
    have hpos : 0 < (CL_AdjustSprayDimensions w h).1 * (CL_AdjustSprayDimensions w h).2 :=
      Int.mul_pos (by omega) (by omega)
    have heq := wrap32_of_range _ (le_of_lt hpos) (by omega)
    rw [heq] at hwrap2
    exact ⟨hpos, hwrap2, heq⟩

/-- Length of a concatenation of three-element chunks. -/
theorem flatMap_three_length (f : Nat → List Nat) (hf : ∀ j, (f j).length = 3)
    (l : List Nat) : (l.flatMap f).length = 3 * l.length := by
  induction l with
  | nil => rfl
  | cons x xs ih =>
    rw [List.flatMap_cons, List.length_append, hf, ih, List.length_cons]
    omega

/-- The palette built at lines 143-148 has 768 bytes. -/
theorem indexedPalette_length (src : List Nat) :
    (indexedPalette src).length = SPRAY_PALETTE_BYTES := by
  unfold indexedPalette
  rw [flatMap_three_length
    (fun i => [src.getD (i * 4 + 0) 0, src.getD (i * 4 + 1) 0, src.getD (i * 4 + 2) 0])
    (fun j => rfl), List.length_range]
  rfl

/-- The palette copied out at lines 179-182 has 768 bytes when the quantizer's
palette has them. -/
theorem markerPalette_length (qpal : List Nat) (hpal : SPRAY_PALETTE_BYTES ≤ qpal.length) :
    (markerPalette qpal).length = SPRAY_PALETTE_BYTES := by
  unfold markerPalette
  rw [List.length_take, List.length_set, List.length_set, List.length_set]
  exact Nat.min_eq_left hpal

/-- The normalizer returns an image only after a successful decode. -/
theorem prepared_image_decoded (env : Externals) (filename : String) (w h : Int) (k : Bool)
    (image : rgbdata_t) (himg : (CL_LoadAndPrepareImage env filename w h k).image = some image) :
    ∃ decoded : rgbdata_t, env.FS_LoadImage filename k = some decoded :=
  match (prepared_image_iff env filename w h k image).mp himg with
  | ⟨decoded, hload, _⟩ => ⟨decoded, hload⟩

/-- C12 (Output dimensions): in every run that reaches the writer, with a
quantizer whose palette has its 768 bytes, the descriptor's (width, height) is
the fitter's result for the decoded image's native resolution, hence multiples
of 16, both at least 16, with an area under 12228 (as the code computes the
product, and as a mathematical product when the native area fits an int); its
size field is width * height, and its palette is the 768-byte RGB table. -/
theorem output_dimensions (env : Externals) (filename : String)
    (hq : ∀ (image : rgbdata_t) (qpal : List Nat),
      (CL_LoadAndPrepareImage env filename 0 0 (isBmp filename)).image = some image →
      isIndexedImg filename image = false →
      (env.Image_Quantize (quantInput image)).palette = some qpal →
      SPRAY_PALETTE_BYTES ≤ qpal.length) :
    ∀ d : rgbdata_t, d ∈ savedImages (CL_ConvertImageToWAD3 env filename).2 →
      ∃ decoded : rgbdata_t,
        env.FS_LoadImage filename (isBmp filename) = some decoded ∧
        (d.width, d.height) = CL_AdjustSprayDimensions decoded.width decoded.height ∧
        d.width % 16 = 0 ∧ d.height % 16 = 0 ∧ 16 ≤ d.width ∧ 16 ≤ d.height ∧
        wrap32 (d.width * d.height) < SPRAY_MAX_SURFACE ∧
        d.size = wrap32 (d.width * d.height) ∧
        (0 < decoded.height → decoded.width * decoded.height < 2147483648 →
          d.width * d.height < SPRAY_MAX_SURFACE ∧ d.size = d.width * d.height) ∧
        ∃ pal : List Nat, d.palette = some pal ∧ pal.length = SPRAY_PALETTE_BYTES := by
  intro d hd
  have key : ∀ (image : rgbdata_t) (indexed : Option (List Nat)) (palette : List Nat)
      (flag : Bool),
      (CL_LoadAndPrepareImage env filename 0 0 (isBmp filename)).image = some image →
      palette.length = SPRAY_PALETTE_BYTES →
      d = tempImage env (CL_LoadAndPrepareImage env filename 0 0 (isBmp filename)).width
        (CL_LoadAndPrepareImage env filename 0 0 (isBmp filename)).height
        indexed palette flag →
      ∃ decoded : rgbdata_t,
        env.FS_LoadImage filename (isBmp filename) = some decoded ∧
        (d.width, d.height) = CL_AdjustSprayDimensions decoded.width decoded.height ∧
        d.width % 16 = 0 ∧ d.height % 16 = 0 ∧ 16 ≤ d.width ∧ 16 ≤ d.height ∧
        wrap32 (d.width * d.height) < SPRAY_MAX_SURFACE ∧
        d.size = wrap32 (d.width * d.height) ∧
        (0 < decoded.height → decoded.width * decoded.height < 2147483648 →
          d.width * d.height < SPRAY_MAX_SURFACE ∧ d.size = d.width * d.height) ∧
        ∃ pal : List Nat, d.palette = some pal ∧ pal.length = SPRAY_PALETTE_BYTES := by
    intro image indexed palette flag himg hlen hdeq
    obtain ⟨decoded, hload⟩ :=
      prepared_image_decoded env filename 0 0 (isBmp filename) image himg
    obtain ⟨hw, hh⟩ := prepared_dims env filename 0 0 (isBmp filename) decoded hload
    rw [hw, hh] at hdeq
    obtain ⟨b1, b2, b3, b4, b5⟩ :=
      fitLoop_bounds decoded.width (F32.div (F32.ofInt decoded.width) (F32.ofInt decoded.height))
        (decoded.height.tdiv 16).toNat
    rw [hdeq]
    refine ⟨decoded, hload, rfl, b1, b2, b3, b4, b5, rfl, ?_, palette, rfl, hlen⟩
    intro hpos harea
    obtain ⟨_, e2, e3⟩ := fit_area_exact decoded.width decoded.height hpos harea
    exact ⟨e2, e3⟩
  rcases savedImages_cases env filename with h | ⟨image, himg, _, h⟩ |
    ⟨image, qbuf, qpal, himg, hpath, _, hqp, h⟩
  · rw [h] at hd
    exact absurd hd (by simp)
  · rw [h] at hd
    exact key image _ _ _ himg (indexedPalette_length _) (List.mem_singleton.mp hd)
  · rw [h] at hd
    exact key image _ _ _ himg (markerPalette_length qpal (hq image qpal himg hpath hqp))
      (List.mem_singleton.mp hd)

/-! ### The resize of the normalizer -/

/-- C11 (Normalizer resize): after a successful decode with fitted size (W, H):
if (W, H) is the native size the decoded image is returned as is and the
resampler is not called; otherwise, when the resampler succeeds, the returned
record has width W, height H, the same pixel format, size W * H * bytesPerPixel
(4 for TrueColorAlpha, 1 for either indexed format, 3 for TrueColor; the
product as the code computes it, and the mathematical product when the native
area fits an int), a buffer equal to the first size bytes of the resampler's
output, and, if keep8bit is set and a palette was present, a palette equal
byte-for-byte to the source palette (768 bytes for Indexed8-RGB, 1024 for
Indexed8-RGBA); when the resampler fails the result is NULL. -/
theorem normalizer_resize (env : Externals) (filename : String) (w0 h0 : Int) (k : Bool)
    (decoded : rgbdata_t) (W H : Int)
    (hload : env.FS_LoadImage filename k = some decoded)
    (hfit : CL_AdjustSprayDimensions decoded.width decoded.height = (W, H)) :
    ((W = decoded.width ∧ H = decoded.height) →
      (CL_LoadAndPrepareImage env filename w0 h0 k).image = some decoded ∧
      Event.resample ∉ (CL_LoadAndPrepareImage env filename w0 h0 k).trace) ∧
    ((W ≠ decoded.width ∨ H ≠ decoded.height) →
      Event.resample ∈ (CL_LoadAndPrepareImage env filename w0 h0 k).trace ∧
      (env.Image_ResampleInternal decoded.buffer decoded.width decoded.height W H decoded.type
          = none →
        (CL_LoadAndPrepareImage env filename w0 h0 k).image = none) ∧
      ∀ rb : List Nat,
        env.Image_ResampleInternal decoded.buffer decoded.width decoded.height W H decoded.type
          = some rb →
        ∃ scaled : rgbdata_t,
          (CL_LoadAndPrepareImage env filename w0 h0 k).image = some scaled ∧
          scaled.width = W ∧ scaled.height = H ∧ scaled.type = decoded.type ∧
          scaled.size = wrap32 (wrap32 (W * H) *
            (if decoded.type = pixformat_t.PF_RGBA_32 then 4
              else if decoded.type = pixformat_t.PF_INDEXED_24 ∨
                decoded.type = pixformat_t.PF_INDEXED_32 then 1 else 3)) ∧
          (0 < decoded.height → decoded.width * decoded.height < 2147483648 →
            scaled.size = W * H *
              (if decoded.type = pixformat_t.PF_RGBA_32 then 4
                else if decoded.type = pixformat_t.PF_INDEXED_24 ∨
                  decoded.type = pixformat_t.PF_INDEXED_32 then 1 else 3)) ∧
          scaled.buffer = some (rb.take scaled.size.toNat) ∧
          (k = true → ∀ pal : List Nat, decoded.palette = some pal →
            (decoded.type = pixformat_t.PF_INDEXED_24 → pal.length = 768 →
              scaled.palette = some pal) ∧
            (decoded.type = pixformat_t.PF_INDEXED_32 → pal.length = 1024 →
              scaled.palette = some pal))) := by
  have hW : (CL_AdjustSprayDimensions decoded.width decoded.height).1 = W := by rw [hfit]
  have hH : (CL_AdjustSprayDimensions decoded.width decoded.height).2 = H := by rw [hfit]
  constructor
  · rintro ⟨h1, h2⟩
    have hno : ¬ ((CL_AdjustSprayDimensions decoded.width decoded.height).1 ≠ decoded.width ∨
        (CL_AdjustSprayDimensions decoded.width decoded.height).2 ≠ decoded.height) := by
      rw [hW, hH]
      rintro (h | h)
      · exact h h1
      · exact h h2
    rw [prepared_native env filename w0 h0 k decoded hload hno]
    exact ⟨rfl, by simp⟩
  · intro hne
    have hyes : (CL_AdjustSprayDimensions decoded.width decoded.height).1 ≠ decoded.width ∨
        (CL_AdjustSprayDimensions decoded.width decoded.height).2 ≠ decoded.height := by
      rw [hW, hH]
      exact hne
    refine ⟨?_, ?_, ?_⟩
    · rcases hres : env.Image_ResampleInternal decoded.buffer decoded.width decoded.height
          (CL_AdjustSprayDimensions decoded.width decoded.height).1
          (CL_AdjustSprayDimensions decoded.width decoded.height).2 decoded.type with _ | rb
      · rw [prepared_resample_fail env filename w0 h0 k decoded hload hyes hres]
        simp
      · rw [prepared_resampled env filename w0 h0 k decoded rb hload hyes hres]
        simp
    · intro hres
      rw [← hW, ← hH] at hres
      rw [prepared_resample_fail env filename w0 h0 k decoded hload hyes hres]
    · intro rb hres
      rw [← hW, ← hH] at hres
      rw [prepared_resampled env filename w0 h0 k decoded rb hload hyes hres]
      rw [hW, hH]
      have hbpp : (if decoded.type = pixformat_t.PF_RGBA_32 then (4 : Int)
            else (if (decide (decoded.type = pixformat_t.PF_INDEXED_24) ||
              decide (decoded.type = pixformat_t.PF_INDEXED_32)) = true then 1 else 3))
          = (if decoded.type = pixformat_t.PF_RGBA_32 then 4
              else if decoded.type = pixformat_t.PF_INDEXED_24 ∨
                decoded.type = pixformat_t.PF_INDEXED_32 then 1 else 3) := by
        cases decoded.type <;> rfl
      have hsize : (scaledImage decoded W H k rb).size = wrap32 (wrap32 (W * H) *
            (if decoded.type = pixformat_t.PF_RGBA_32 then 4
              else if decoded.type = pixformat_t.PF_INDEXED_24 ∨
                decoded.type = pixformat_t.PF_INDEXED_32 then 1 else 3)) := by
        rw [← hbpp]
        rfl
      refine ⟨_, rfl, rfl, rfl, rfl, hsize, ?_, rfl, ?_⟩
      · intro hpos harea
        obtain ⟨e1, e2, e3⟩ := fit_area_exact decoded.width decoded.height hpos harea
        rw [hW, hH] at e1 e2 e3
        rw [hsize, e3]
        have hb : (1 : Int) ≤ (if decoded.type = pixformat_t.PF_RGBA_32 then 4
              else if decoded.type = pixformat_t.PF_INDEXED_24 ∨
                decoded.type = pixformat_t.PF_INDEXED_32 then 1 else 3) ∧
            (if decoded.type = pixformat_t.PF_RGBA_32 then (4 : Int)
              else if decoded.type = pixformat_t.PF_INDEXED_24 ∨
                decoded.type = pixformat_t.PF_INDEXED_32 then 1 else 3) ≤ 4 := by
          split_ifs <;> constructor <;> decide
        unfold SPRAY_MAX_SURFACE at e2
        apply wrap32_of_range
        · exact Int.mul_nonneg (le_of_lt e1) (by omega)
        · have h4 : W * H * (if decoded.type = pixformat_t.PF_RGBA_32 then (4 : Int)
              else if decoded.type = pixformat_t.PF_INDEXED_24 ∨
                decoded.type = pixformat_t.PF_INDEXED_32 then 1 else 3) ≤ W * H * 4 :=
            Int.mul_le_mul_of_nonneg_left hb.2 (le_of_lt e1)
          omega
      · intro hk pal hpal
        have hp : (scaledImage decoded W H k rb).palette =
            some (pal.take (256 * (if decoded.type = pixformat_t.PF_INDEXED_32 then 4 else 3))) := by
          unfold scaledImage
          simp [hk, hpal]
        constructor
        · intro ht hlen
          rw [hp, ht]
          simp only [if_neg (by decide : ¬ pixformat_t.PF_INDEXED_24 = pixformat_t.PF_INDEXED_32)]
          rw [List.take_of_length_le (by omega)]
        · intro ht hlen
          rw [hp, ht]
          simp only [if_true]
          rw [List.take_of_length_le (by omega)]

/-- A resize: the 20x20 indexed sample is fitted to 16x16 and the resampler
succeeds. -/
theorem normalizer_resize_witness :
    (resizeEnv.FS_LoadImage "big.bmp" true = some sampleLargeIndexed ∧
      CL_AdjustSprayDimensions sampleLargeIndexed.width sampleLargeIndexed.height = (16, 16) ∧
      ((16 : Int) ≠ sampleLargeIndexed.width ∨ (16 : Int) ≠ sampleLargeIndexed.height) ∧
      resizeEnv.Image_ResampleInternal sampleLargeIndexed.buffer sampleLargeIndexed.width
        sampleLargeIndexed.height 16 16 sampleLargeIndexed.type = some (List.replicate 300 5) ∧
      sampleLargeIndexed.palette = some (List.replicate 1024 3) ∧
      (List.replicate 1024 3).length = 1024) ∧
    ∃ scaled : rgbdata_t,
      (CL_LoadAndPrepareImage resizeEnv "big.bmp" 0 0 true).image = some scaled ∧
      scaled.width = 16 ∧ scaled.height = 16 ∧ scaled.type = sampleLargeIndexed.type ∧
      scaled.size = 256 ∧
      scaled.buffer = some ((List.replicate 300 5).take 256) ∧
      scaled.palette = some (List.replicate 1024 3) :=
  have h := ((normalizer_resize resizeEnv "big.bmp" 0 0 true sampleLargeIndexed 16 16
    (by rfl) (by decide)).2 (Or.inl (by decide))).2.2 (List.replicate 300 5) (by rfl)
  match h with
  | ⟨scaled, h1, h2, h3, h4, h5, _, h7, h8⟩ =>
    ⟨⟨by rfl, by decide, Or.inl (by decide), by rfl, by rfl, List.length_replicate 1024 3⟩,
      scaled, h1, h2, h3, h4, h5, by rw [h7, h5]; rfl,
      (h8 rfl (List.replicate 1024 3) (by rfl)).2 (by rfl) (List.length_replicate 1024 3)⟩

/-- Instance of the output dimensions on the sample RGBA run, whose quantizer
always leaves the 768-byte sample palette; the run reaches the writer once. -/
theorem output_dimensions_witness :
    (∀ (image : rgbdata_t) (qpal : List Nat),
      (CL_LoadAndPrepareImage sampleEnv "spray.tga" 0 0 (isBmp "spray.tga")).image
        = some image →
      isIndexedImg "spray.tga" image = false →
      (sampleEnv.Image_Quantize (quantInput image)).palette = some qpal →
      SPRAY_PALETTE_BYTES ≤ qpal.length) ∧
    (savedImages (CL_ConvertImageToWAD3 sampleEnv "spray.tga").2).length = 1 ∧
    ∀ d : rgbdata_t, d ∈ savedImages (CL_ConvertImageToWAD3 sampleEnv "spray.tga").2 →
      ∃ decoded : rgbdata_t,
        sampleEnv.FS_LoadImage "spray.tga" (isBmp "spray.tga") = some decoded ∧
        (d.width, d.height) = CL_AdjustSprayDimensions decoded.width decoded.height ∧
        d.width % 16 = 0 ∧ d.height % 16 = 0 ∧ 16 ≤ d.width ∧ 16 ≤ d.height ∧
        wrap32 (d.width * d.height) < SPRAY_MAX_SURFACE ∧
        d.size = wrap32 (d.width * d.height) ∧
        (0 < decoded.height → decoded.width * decoded.height < 2147483648 →
          d.width * d.height < SPRAY_MAX_SURFACE ∧ d.size = d.width * d.height) ∧
        ∃ pal : List Nat, d.palette = some pal ∧ pal.length = SPRAY_PALETTE_BYTES :=
  have hq : ∀ (image : rgbdata_t) (qpal : List Nat),
      (CL_LoadAndPrepareImage sampleEnv "spray.tga" 0 0 (isBmp "spray.tga")).image
        = some image →
      isIndexedImg "spray.tga" image = false →
      (sampleEnv.Image_Quantize (quantInput image)).palette = some qpal →
      SPRAY_PALETTE_BYTES ≤ qpal.length := by
    intro image qpal _ _ h
    have h2 : some sampleQuantPalette = some qpal := h
    cases h2
    exact le_of_eq (List.length_replicate 768 9).symm
  ⟨hq, by rfl, output_dimensions sampleEnv "spray.tga" hq⟩

/-! ### Releases -/

/-- The record the normalizer returns has not been released by it, and the
normalizer releases no quantize record. -/
theorem prepared_owner_kept (env : Externals) (filename : String) (w h : Int) (k : Bool)
    (image : rgbdata_t)
    (himg : (CL_LoadAndPrepareImage env filename w h k).image = some image) :
    Event.freeImage (CL_LoadAndPrepareImage env filename w h k).owner
        ∉ (CL_LoadAndPrepareImage env filename w h k).trace ∧
    Event.freeImage Obj.quant ∉ (CL_LoadAndPrepareImage env filename w h k).trace := by
  rcases hload : env.FS_LoadImage filename k with _ | decoded
  · rw [prepared_decode_fail env filename w h k hload] at himg
    exact absurd himg (by simp)
  · by_cases hfit : (CL_AdjustSprayDimensions decoded.width decoded.height).1 ≠ decoded.width ∨
        (CL_AdjustSprayDimensions decoded.width decoded.height).2 ≠ decoded.height
    · rcases hres : env.Image_ResampleInternal decoded.buffer decoded.width decoded.height
          (CL_AdjustSprayDimensions decoded.width decoded.height).1
          (CL_AdjustSprayDimensions decoded.width decoded.height).2 decoded.type with _ | rb
      · rw [prepared_resample_fail env filename w h k decoded hload hfit hres] at himg
        exact absurd himg (by simp)
      · rw [prepared_resampled env filename w h k decoded rb hload hfit hres]
        dsimp only
        split_ifs <;> simp
    · rw [prepared_native env filename w h k decoded hload hfit]
      simp

/-- Where the leak is: in every run that reaches the writer (whatever the
writer returns) no FS_FreeImage is applied to the normalized image, and on the
quantize path the scratch record and its buffer were allocated and the record
is not released either. -/
theorem no_release_when_written (env : Externals) (filename : String)
    (hsaved : savedImages (CL_ConvertImageToWAD3 env filename).2 ≠ []) :
    ∃ image : rgbdata_t,
      (CL_LoadAndPrepareImage env filename 0 0 (isBmp filename)).image = some image ∧
      Event.freeImage (CL_LoadAndPrepareImage env filename 0 0 (isBmp filename)).owner
        ∉ (CL_ConvertImageToWAD3 env filename).2 ∧
      (isIndexedImg filename image = false →
        Event.malloc Obj.quant ∈ (CL_ConvertImageToWAD3 env filename).2 ∧
        Event.malloc Obj.quant_buffer ∈ (CL_ConvertImageToWAD3 env filename).2 ∧
        Event.freeImage Obj.quant ∉ (CL_ConvertImageToWAD3 env filename).2) := by
  rcases savedImages_cases env filename with h | ⟨image, himg, hpath, _⟩ |
    ⟨image, qbuf, qpal, himg, hpath, hqb, hqp, _⟩
  · exact absurd h hsaved
  · obtain ⟨k1, _⟩ := prepared_owner_kept env filename 0 0 (isBmp filename) image himg
    refine ⟨image, himg, ?_, ?_⟩
    · rw [convert_indexed_path env filename image himg hpath]
      simp [k1]
    · intro hc
      rw [hpath] at hc
      exact absurd hc (by simp)
  · obtain ⟨k1, k2⟩ := prepared_owner_kept env filename 0 0 (isBmp filename) image himg
    refine ⟨image, himg, ?_, ?_⟩
    · rw [convert_quantize_path env filename image qbuf qpal himg hpath hqb hqp]
      simp [k1]
    · intro _
      rw [convert_quantize_path env filename image qbuf qpal himg hpath hqb hqp]
      simp [k2]

/-- C13 (Resource release), failing input: the conversion of the sample RGBA
image, with a writer that succeeds and with one that fails. Both runs make the
calls load, Mem_Malloc (quant), Mem_Malloc (quant buffer), quantize, save and
return from line 196: no FS_FreeImage follows for the decoded image or for the
scratch quantize record. -/
theorem release_missing_on_success :
    ((CL_ConvertImageToWAD3 sampleEnv "spray.tga").1 = true ∧
      (CL_ConvertImageToWAD3 sampleEnv "spray.tga").2.dropLast =
        [Event.load "spray.tga" false, Event.malloc Obj.quant, Event.malloc Obj.quant_buffer,
          Event.quantize] ∧
      (∃ d : rgbdata_t, (CL_ConvertImageToWAD3 sampleEnv "spray.tga").2.getLast?
        = some (Event.save SPRAY_FILENAME d)) ∧
      Event.freeImage Obj.decoded ∉ (CL_ConvertImageToWAD3 sampleEnv "spray.tga").2 ∧
      Event.freeImage Obj.quant ∉ (CL_ConvertImageToWAD3 sampleEnv "spray.tga").2) ∧
    ((CL_ConvertImageToWAD3
        { sampleEnv with Image_SaveWAD := fun _ _ => false } "spray.tga").1 = false ∧
      (CL_ConvertImageToWAD3
        { sampleEnv with Image_SaveWAD := fun _ _ => false } "spray.tga").2.dropLast =
        [Event.load "spray.tga" false, Event.malloc Obj.quant, Event.malloc Obj.quant_buffer,
          Event.quantize] ∧
      (∃ d : rgbdata_t, (CL_ConvertImageToWAD3
          { sampleEnv with Image_SaveWAD := fun _ _ => false } "spray.tga").2.getLast?
        = some (Event.save SPRAY_FILENAME d))) := by
  have ht : (CL_ConvertImageToWAD3 sampleEnv "spray.tga").2 =
      [Event.load "spray.tga" false, Event.malloc Obj.quant, Event.malloc Obj.quant_buffer,
        Event.quantize,
        Event.save SPRAY_FILENAME
          (tempImage sampleEnv 16 16
            (some (quantIndices sampleRGBA 256 sampleQuantBuffer))
            (markerPalette sampleQuantPalette) false)] := by rfl
  refine ⟨⟨by rfl, by rfl, ⟨_, by rfl⟩, ?_, ?_⟩, ⟨by rfl, by rfl, ⟨_, by rfl⟩⟩⟩
  · rw [ht]
    simp
  · rw [ht]
    simp

/-! ### The extension test -/

/-- The search finds nothing exactly when the character does not occur. -/
theorem strrchrChars_none (c : Char) (s : List Char) :
    strrchrChars c s = none ↔ c ∉ s := by
  induction s with
  | nil => simp [strrchrChars]
  | cons x xs ih =>
    unfold strrchrChars
    rcases hr : strrchrChars c xs with _ | r
    · have hc : c ∉ xs := ih.mp hr
      by_cases hx : x = c
      · simp [hx]
      · simp [hx, hc, Ne.symm hx]
    · have hc : ¬ c ∉ xs := fun h => by
        have := ih.mpr h
        rw [hr] at this
        exact absurd this (by simp)
      have hc2 : c ∈ xs := by
        by_contra h
        exact hc h
      simp [hc2]

/-- The search returns the suffix that starts at the last occurrence of the
character. -/
theorem strrchrChars_some (c : Char) (s r : List Char) :
    strrchrChars c s = some r ↔
      ∃ pre suf : List Char, s = pre ++ c :: suf ∧ c ∉ suf ∧ r = c :: suf := by
  induction s generalizing r with
  | nil =>
    constructor
    · intro h
      exact absurd h (by simp [strrchrChars])
    · rintro ⟨pre, suf, h, _⟩
      exact absurd h (by simp)
  | cons x xs ih =>
    unfold strrchrChars
    rcases hr : strrchrChars c xs with _ | r2
    · have hc : c ∉ xs := (strrchrChars_none c xs).mp hr
      by_cases hx : x = c
      · subst hx
        simp only [if_true]
        constructor
        · intro h
          exact ⟨[], xs, rfl, hc, (Option.some.inj h).symm⟩
        · rintro ⟨pre, suf, h, hsuf, hreq⟩
          cases pre with
          | nil =>
            simp only [List.nil_append, List.cons.injEq, true_and] at h
            rw [hreq, h]
          | cons p ps =>
            exfalso
            simp only [List.cons_append, List.cons.injEq] at h
            apply hc
            rw [h.2]
            simp
      · simp only [hx, if_false]
        constructor
        · intro h
          exact absurd h (by simp)
        · rintro ⟨pre, suf, h, _, _⟩
          cases pre with
          | nil =>
            simp only [List.nil_append, List.cons.injEq] at h
            exact absurd h.1 hx
          | cons p ps =>
            exfalso
            simp only [List.cons_append, List.cons.injEq] at h
            apply hc
            rw [h.2]
            simp
    · obtain ⟨pre2, suf2, h2, hsuf2, hr2⟩ := (ih r2).mp hr
      simp only
      constructor
      · intro h
        have e : r2 = r := Option.some.inj h
        exact ⟨x :: pre2, suf2, by rw [h2]; rfl, hsuf2, by rw [← e, hr2]⟩
      · rintro ⟨pre, suf, h, hsuf, hreq⟩
        cases pre with
        | nil =>
          exfalso
          simp only [List.nil_append, List.cons.injEq] at h
          apply hsuf
          rw [← h.2, h2]
          simp
        | cons p ps =>
          simp only [List.cons_append, List.cons.injEq] at h
          have h3 : strrchrChars c xs = some (c :: suf) := (ih (c :: suf)).mpr ⟨ps, suf, h.2, hsuf, rfl⟩
          rw [hr] at h3
          rw [hreq]
          exact h3

/-- The extension test of lines 132-133 holds exactly when the text after the
last dot of the file name is "bmp" up to the case of its letters. -/
theorem isBmp_iff (filename : String) :
    isBmp filename = true ↔
      ∃ pre ext : List Char, filename.data = pre ++ '.' :: ext ∧ '.' ∉ ext ∧
        ext.map Char.toLower = ['b', 'm', 'p'] := by
  unfold isBmp Q_strrchr
  rcases hr : strrchrChars '.' filename.data with _ | r
  · have hc : '.' ∉ filename.data := (strrchrChars_none '.' filename.data).mp hr
    simp only [Option.map_none']
    constructor
    · intro h
      exact absurd h (by simp)
    · rintro ⟨pre, ext, h, _, _⟩
      exfalso
      apply hc
      rw [h]
      simp
  · obtain ⟨pre, suf, h, hsuf, hreq⟩ := (strrchrChars_some '.' filename.data r).mp hr
    subst hreq
    have hdot : ('.' :: suf).map Char.toLower = '.' :: suf.map Char.toLower := rfl
    have hbmp : (".bmp" : String).data.map Char.toLower = ['.', 'b', 'm', 'p'] := by decide
    simp only [Option.map_some', Q_stricmp, hdot, hbmp]
    constructor
    · intro hd
      refine ⟨pre, suf, h, hsuf, ?_⟩
      by_contra hne
      have hne2 : ¬ ('.' :: List.map Char.toLower suf = ['.', 'b', 'm', 'p']) := by
        intro e
        exact hne (List.cons.inj e).2
      rw [if_neg hne2] at hd
      exact absurd hd (by decide)
    · rintro ⟨pre2, ext2, h2, hext2, hlow⟩
      have e : '.' :: ext2 = '.' :: suf := by
        have h3 : strrchrChars '.' filename.data = some ('.' :: ext2) :=
          (strrchrChars_some '.' filename.data ('.' :: ext2)).mpr ⟨pre2, ext2, h2, hext2, rfl⟩
        rw [hr] at h3
        exact (Option.some.inj h3).symm
      have e2 : ext2 = suf := (List.cons.inj e).2
      rw [← e2, hlow]
      simp

/-- The calls of the normalizer start with the one decode, made with the force
flag it was given, and include no quantizer call. -/
theorem prepared_trace_shape (env : Externals) (filename : String) (w h : Int) (k : Bool) :
    ∃ rest : List Event,
      (CL_LoadAndPrepareImage env filename w h k).trace = Event.load filename k :: rest ∧
      (∀ (f : String) (b : Bool), Event.load f b ∉ rest) ∧
      Event.quantize ∉ rest ∧ savedImages rest = [] := by
  rcases hload : env.FS_LoadImage filename k with _ | decoded
  · rw [prepared_decode_fail env filename w h k hload]
    exact ⟨[], rfl, by simp, by simp, rfl⟩
  · by_cases hfit : (CL_AdjustSprayDimensions decoded.width decoded.height).1 ≠ decoded.width ∨
        (CL_AdjustSprayDimensions decoded.width decoded.height).2 ≠ decoded.height
    · rcases hres : env.Image_ResampleInternal decoded.buffer decoded.width decoded.height
          (CL_AdjustSprayDimensions decoded.width decoded.height).1
          (CL_AdjustSprayDimensions decoded.width decoded.height).2 decoded.type with _ | rb
      · rw [prepared_resample_fail env filename w h k decoded hload hfit hres]
        exact ⟨_, rfl, by simp, by simp, rfl⟩
      · rw [prepared_resampled env filename w h k decoded rb hload hfit hres]
        refine ⟨_, rfl, ?_, ?_, ?_⟩
        · intro f b
          split_ifs <;> simp
        · split_ifs <;> simp
        · split_ifs <;> rfl
    · rw [prepared_native env filename w h k decoded hload hfit]
      exact ⟨[], rfl, by simp, by simp, rfl⟩

/-- C14 (Path selection): the extension test holds exactly when the text after
the last dot of the file name is "bmp" up to case; the decoder is called once,
with the palette-preserving flag set exactly when the test holds; with a
normalized image, the indexed-reuse branch is taken if and only if the test
holds and the image carries a palette, the quantizer is called if and only if
it is not taken, and the gradient-decal bit of the written descriptor is set
on the indexed-reuse branch and cleared on the quantize branch. -/
theorem path_selection (env : Externals) (filename : String)
    (hG : env.IMAGE_GRADIENT_DECAL ≠ 0) :
    (isBmp filename = true ↔
      ∃ pre ext : List Char, filename.data = pre ++ '.' :: ext ∧ '.' ∉ ext ∧
        ext.map Char.toLower = ['b', 'm', 'p']) ∧
    (∃ rest : List Event,
      (CL_ConvertImageToWAD3 env filename).2 = Event.load filename (isBmp filename) :: rest ∧
      ∀ (f : String) (b : Bool), Event.load f b ∉ rest) ∧
    (∀ image : rgbdata_t,
      (CL_LoadAndPrepareImage env filename 0 0 (isBmp filename)).image = some image →
      (isIndexedImg filename image = true ↔ (isBmp filename = true ∧ image.palette ≠ none)) ∧
      (isIndexedImg filename image = true →
        savedImages (CL_ConvertImageToWAD3 env filename).2 =
          [tempImage env (CL_LoadAndPrepareImage env filename 0 0 (isBmp filename)).width
            (CL_LoadAndPrepareImage env filename 0 0 (isBmp filename)).height
            image.buffer (indexedPalette (image.palette.getD [])) true]) ∧
      (Event.quantize ∈ (CL_ConvertImageToWAD3 env filename).2 ↔
        isIndexedImg filename image = false) ∧
      (∀ d : rgbdata_t, d ∈ savedImages (CL_ConvertImageToWAD3 env filename).2 →
        (d.flags &&& env.IMAGE_GRADIENT_DECAL ≠ 0 ↔ isIndexedImg filename image = true) ∧
        (isIndexedImg filename image = true →
          d.flags &&& env.IMAGE_GRADIENT_DECAL = env.IMAGE_GRADIENT_DECAL) ∧
        (isIndexedImg filename image = false → d.flags = 0))) := by
  obtain ⟨rest, hrest, hnoload, hnoquant, _⟩ :=
    prepared_trace_shape env filename 0 0 (isBmp filename)
  refine ⟨isBmp_iff filename, ?_, ?_⟩
  · rcases himg : (CL_LoadAndPrepareImage env filename 0 0 (isBmp filename)).image
      with _ | image
    · rw [convert_no_image env filename himg]
      exact ⟨rest, hrest, hnoload⟩
    · rcases hpath : isIndexedImg filename image with _ | _
      · rcases hb : (env.Image_Quantize (quantInput image)).buffer with _ | qbuf
        · rw [convert_quantize_fail env filename image himg hpath (Or.inl hb), hrest]
          refine ⟨_, rfl, ?_⟩
          intro f b
          simp [hnoload f b]
        · rcases hp : (env.Image_Quantize (quantInput image)).palette with _ | qpal
          · rw [convert_quantize_fail env filename image himg hpath (Or.inr hp), hrest]
            refine ⟨_, rfl, ?_⟩
            intro f b
            simp [hnoload f b]
          · rw [convert_quantize_path env filename image qbuf qpal himg hpath hb hp, hrest]
            refine ⟨_, rfl, ?_⟩
            intro f b
            simp [hnoload f b]
      · rw [convert_indexed_path env filename image himg hpath, hrest]
        refine ⟨_, rfl, ?_⟩
        intro f b
        simp [hnoload f b]
  · intro image himg
    have hiff : isIndexedImg filename image = true ↔
        (isBmp filename = true ∧ image.palette ≠ none) := by
      unfold isIndexedImg
      rw [Bool.and_eq_true, Option.isSome_iff_ne_none]
    refine ⟨hiff, ?_, ?_, ?_⟩
    · intro hpath
      exact savedImages_indexed_path env filename image himg hpath
    · rcases hpath : isIndexedImg filename image with _ | _
      · refine ⟨fun _ => rfl, fun _ => ?_⟩
        rcases hb : (env.Image_Quantize (quantInput image)).buffer with _ | qbuf
        · rw [convert_quantize_fail env filename image himg hpath (Or.inl hb)]
          simp
        · rcases hp : (env.Image_Quantize (quantInput image)).palette with _ | qpal
          · rw [convert_quantize_fail env filename image himg hpath (Or.inr hp)]
            simp
          · rw [convert_quantize_path env filename image qbuf qpal himg hpath hb hp]
            simp
      · constructor
        · intro hmem
          exfalso
          rw [convert_indexed_path env filename image himg hpath, hrest] at hmem
          simp at hmem
          exact hnoquant hmem
        · intro hc
          exact absurd hc (by simp)
    · intro d hd
      rcases hpath : isIndexedImg filename image with _ | _
      · have hflags : d.flags = 0 := by
          rcases savedImages_cases env filename with h | ⟨image2, himg2, hpath2, _⟩ |
            ⟨image2, qbuf, qpal, _, _, _, _, h⟩
          · rw [h] at hd
            exact absurd hd (by simp)
          · rw [himg] at himg2
            cases himg2
            rw [hpath] at hpath2
            exact absurd hpath2 (by simp)
          · rw [h] at hd
            rw [List.mem_singleton.mp hd]
            rfl
        refine ⟨?_, fun hc => absurd hc (by simp), fun _ => hflags⟩
        rw [hflags, Nat.zero_and]
        simp
      · have hflags : d.flags = 0 ||| env.IMAGE_GRADIENT_DECAL := by
          rw [savedImages_indexed_path env filename image himg hpath] at hd
          rw [List.mem_singleton.mp hd]
          rfl
        have hset : d.flags &&& env.IMAGE_GRADIENT_DECAL = env.IMAGE_GRADIENT_DECAL := by
          rw [hflags, Nat.zero_or, Nat.and_self]
        refine ⟨⟨fun _ => rfl, fun _ => ?_⟩, fun _ => hset, fun hc => absurd hc (by simp)⟩
        rw [hset]
        exact hG

/-- Two sample runs: logo.BMP, which takes the indexed-reuse branch, with the
sample flag bit 8192. -/
theorem path_selection_witness :
    sampleEnv.IMAGE_GRADIENT_DECAL ≠ 0 ∧
    (isBmp "logo.BMP" = true ∧ isBmp "spray.tga" = false ∧ isBmp "logo.bmp.tga" = false ∧
      isBmp "bmp" = false) ∧
    ((isBmp "logo.BMP" = true ↔
      ∃ pre ext : List Char, ("logo.BMP" : String).data = pre ++ '.' :: ext ∧ '.' ∉ ext ∧
        ext.map Char.toLower = ['b', 'm', 'p']) ∧
    (∃ rest : List Event,
      (CL_ConvertImageToWAD3 sampleEnv "logo.BMP").2
        = Event.load "logo.BMP" (isBmp "logo.BMP") :: rest ∧
      ∀ (f : String) (b : Bool), Event.load f b ∉ rest) ∧
    (∀ image : rgbdata_t,
      (CL_LoadAndPrepareImage sampleEnv "logo.BMP" 0 0 (isBmp "logo.BMP")).image = some image →
      (isIndexedImg "logo.BMP" image = true ↔
        (isBmp "logo.BMP" = true ∧ image.palette ≠ none)) ∧
      (isIndexedImg "logo.BMP" image = true →
        savedImages (CL_ConvertImageToWAD3 sampleEnv "logo.BMP").2 =
          [tempImage sampleEnv
            (CL_LoadAndPrepareImage sampleEnv "logo.BMP" 0 0 (isBmp "logo.BMP")).width
            (CL_LoadAndPrepareImage sampleEnv "logo.BMP" 0 0 (isBmp "logo.BMP")).height
            image.buffer (indexedPalette (image.palette.getD [])) true]) ∧
      (Event.quantize ∈ (CL_ConvertImageToWAD3 sampleEnv "logo.BMP").2 ↔
        isIndexedImg "logo.BMP" image = false) ∧
      (∀ d : rgbdata_t, d ∈ savedImages (CL_ConvertImageToWAD3 sampleEnv "logo.BMP").2 →
        (d.flags &&& sampleEnv.IMAGE_GRADIENT_DECAL ≠ 0 ↔
          isIndexedImg "logo.BMP" image = true) ∧
        (isIndexedImg "logo.BMP" image = true →
          d.flags &&& sampleEnv.IMAGE_GRADIENT_DECAL = sampleEnv.IMAGE_GRADIENT_DECAL) ∧
        (isIndexedImg "logo.BMP" image = false → d.flags = 0)))) :=
  ⟨by decide, ⟨by rfl, by rfl, by rfl, by rfl⟩, path_selection sampleEnv "logo.BMP" (by decide)⟩

set_option maxRecDepth 10000 in
/-- The descriptor written for the sample RGBA image: the opaque pixel 0, which
the quantizer gave index 255, ends at 254; the transparent pixel 1, which the
quantizer gave index 254, ends at 255; palette entry 255 is (0, 0, 255) and
entry 254 is the quantizer's. -/
theorem quantize_sample_descriptor :
    ∃ (d : rgbdata_t) (pal final : List Nat),
      savedImages (CL_ConvertImageToWAD3 sampleEnv "spray.tga").2 = [d] ∧
      d.palette = some pal ∧ d.buffer = some final ∧
      (d.width, d.height, d.size, d.flags) = (16, 16, 256, 0) ∧
      [sampleQuantBuffer[0]?, sampleQuantBuffer[1]?] = [some 255, some 254] ∧
      [final[0]?, final[1]?] = [some 254, some 255] ∧
      [pal[762]?, pal[763]?, pal[764]?, pal[765]?, pal[766]?, pal[767]?]
        = [some 9, some 9, some 9, some 0, some 0, some 255] := by
  have hlen : SPRAY_PALETTE_BYTES ≤ sampleQuantPalette.length :=
    le_of_eq (List.length_replicate 768 9).symm
  obtain ⟨e0, e1, e2⟩ := markerPalette_entry255 sampleQuantPalette hlen
  have hq : ∀ j : Nat, j < 768 → sampleQuantPalette[j]? = some 9 := by
    intro j hj
    unfold sampleQuantPalette
    rw [List.getElem?_replicate, if_pos hj]
  refine ⟨_, _, _,
    savedImages_quantize_path sampleEnv "spray.tga" sampleRGBA sampleQuantBuffer
      sampleQuantPalette (by rfl) (by rfl) (by rfl) (by rfl),
    rfl, rfl, by decide, by decide, ?_, ?_⟩
  · show [(quantIndices sampleRGBA _ sampleQuantBuffer)[0]?,
      (quantIndices sampleRGBA _ sampleQuantBuffer)[1]?] = [some 254, some 255]
    rw [quantIndices_getElem?, quantIndices_getElem?]
    decide
  · show [(markerPalette sampleQuantPalette)[762]?, (markerPalette sampleQuantPalette)[763]?,
      (markerPalette sampleQuantPalette)[764]?, (markerPalette sampleQuantPalette)[255 * 3 + 0]?,
      (markerPalette sampleQuantPalette)[255 * 3 + 1]?,
      (markerPalette sampleQuantPalette)[255 * 3 + 2]?] = _
    rw [e0, e1, e2, markerPalette_frame _ 762 (by decide), markerPalette_frame _ 763 (by decide),
      markerPalette_frame _ 764 (by decide), hq 762 (by decide), hq 763 (by decide),
      hq 764 (by decide)]

/-! ### The greedy search against the exact candidate width -/

/-- The exact candidate width is the formula of the specification evaluated in
the rationals. -/
theorem specCandidate_eq_floor (w h H : Int) (hh : 0 < h) :
    specCandidate w h H = ⌊(H : ℚ) * ((w : ℚ) / (h : ℚ)) / 16⌋ * 16 := by
  unfold specCandidate
  have hpos : (0 : Int) < 16 * h := by omega
  have hq : (H : ℚ) * ((w : ℚ) / (h : ℚ)) / 16
      = ((H * w : Int) : ℚ) / (((16 * h).toNat : Nat) : ℚ) := by
    have hcast : ((((16 * h).toNat : Nat) : Int) : ℚ) = ((16 * h : Int) : ℚ) := by
      rw [Int.toNat_of_nonneg (le_of_lt hpos)]
    have hcast2 : (((16 * h).toNat : Nat) : ℚ) = ((16 * h : Int) : ℚ) := by
      rw [← hcast]
      norm_cast
    rw [hcast2]
    have hne : (h : ℚ) ≠ 0 := by
      have : (h : ℚ) > 0 := by exact_mod_cast hh
      exact ne_of_gt this
    push_cast
    field_simp
    left
    ring
  rw [hq, Rat.floor_intCast_div_natCast, Int.toNat_of_nonneg (le_of_lt hpos)]

/-- C3 (Fit greedy search), failing inputs. For the source 32x656 the
specification's candidate at H = 656 is c = 32, rejected by the area test
(32 * 656 = 20992), and at H = 640 it is c = 16, which qualifies, so the
largest qualifying height is 640 and the claim gives (16, 640); the code
computes 656 * aspect = 31.999998 in binary32, truncates it to 31, takes the
candidate 16 at H = 656 and returns (16, 656). For the source 16x656 the
specification's candidate at H = 656 is 16 and qualifies, so the claim gives
(16, 656); the code computes the candidate 0 there and returns (16, 16). -/
theorem fit_greedy_fails_32_656 :
    (((0 : Int) < 32 ∧ (0 : Int) < 656) ∧
      specCandidate 32 656 656 = 32 ∧ ¬ specQualifies 32 656 656 ∧
      specCandidate 32 656 640 = 16 ∧ specQualifies 32 656 640 ∧
      (∀ T : Int, 16 ∣ T → 640 < T → T ≤ 656 → ¬ specQualifies 32 656 T) ∧
      F32.div (F32.ofInt 32) (F32.ofInt 656) = ⟨13094412, -28⟩ ∧
      F32.mul (F32.ofInt 656) ⟨13094412, -28⟩ = ⟨16777215, -19⟩ ∧
      f2i ⟨16777215, -19⟩ = 31 ∧
      candidate 32 656 656 = 16 ∧
      CL_AdjustSprayDimensions 32 656 = (16, 656) ∧
      CL_AdjustSprayDimensions 32 656 ≠ (specCandidate 32 656 640, 640)) ∧
    (((0 : Int) < 16 ∧ (0 : Int) < 656) ∧
      specCandidate 16 656 656 = 16 ∧ specQualifies 16 656 656 ∧
      candidate 16 656 656 = 0 ∧
      CL_AdjustSprayDimensions 16 656 = (16, 16) ∧
      CL_AdjustSprayDimensions 16 656 ≠ (specCandidate 16 656 656, 656)) := by
  refine ⟨⟨by decide, by decide, by decide, by decide, by decide, ?_, by decide, by decide,
    by decide, by decide, by decide, by decide⟩,
    ⟨by decide, by decide, by decide, by decide, by decide, by decide⟩⟩
  rintro T ⟨t, rfl⟩ h1 h2
  have ht : t = 41 := by omega
  subst ht
  decide

/-- Where the greedy search of the specification holds: for a positive source
whose area fits an int, if at every candidate height the width the code
computes is the exact c(H), and some height qualifies, the fitter returns
(c(H), H) for the largest multiple of 16 in [16, h] that qualifies, every taller
one failing a test. -/
theorem fit_greedy_exact (w h : Int) (hw : 0 < w) (hh : 0 < h)
    (harea : w * h < 2147483648)
    (hagree : ∀ H : Int, 16 ∣ H → 16 ≤ H → H ≤ h → candidate w h H = specCandidate w h H)
    (hex : ∃ H : Int, 16 ∣ H ∧ 16 ≤ H ∧ H ≤ h ∧ specQualifies w h H) :
    16 ∣ (CL_AdjustSprayDimensions w h).2 ∧
    16 ≤ (CL_AdjustSprayDimensions w h).2 ∧
    (CL_AdjustSprayDimensions w h).2 ≤ h ∧
    specQualifies w h (CL_AdjustSprayDimensions w h).2 ∧
    (CL_AdjustSprayDimensions w h).1 = specCandidate w h (CL_AdjustSprayDimensions w h).2 ∧
    ∀ T : Int, 16 ∣ T → (CL_AdjustSprayDimensions w h).2 < T → T ≤ h →
      ¬ specQualifies w h T := by
  have hiff : ∀ H : Int, 16 ∣ H → 16 ≤ H → H ≤ h →
      (qualifies w h H ↔ specQualifies w h H) := by
    intro H hd h16 hle
    unfold qualifies passes specQualifies
    rw [hagree H hd h16 hle]
    constructor
    · rintro ⟨a, b, c⟩
      have hprod : specCandidate w h H * H ≤ w * h :=
        Int.mul_le_mul b hle (by omega) (by omega)
      have hnn : 0 ≤ specCandidate w h H * H := Int.mul_nonneg (by omega) (by omega)
      rw [wrap32_of_range _ hnn (by omega)] at c
      exact ⟨a, b, c⟩
    · rintro ⟨a, b, c⟩
      have hprod : specCandidate w h H * H ≤ w * h :=
        Int.mul_le_mul b hle (by omega) (by omega)
      have hnn : 0 ≤ specCandidate w h H * H := Int.mul_nonneg (by omega) (by omega)
      refine ⟨a, b, ?_⟩
      rw [wrap32_of_range _ hnn (by omega)]
      exact c
  obtain ⟨H0, hd0, h160, hle0, hq0⟩ := hex
  obtain ⟨g1, g2, g3, g4, g5, g6⟩ :=
    fit_greedy w h hw hh ⟨H0, hd0, h160, hle0, (hiff H0 hd0 h160 hle0).mpr hq0⟩
  refine ⟨g1, g2, g3, (hiff _ g1 g2 g3).mp g4, ?_, ?_⟩
  · rw [g5]
    exact hagree _ g1 g2 g3
  · intro T hT hlt hle hq
    have h16 : 16 ≤ T := by omega
    exact g6 T hT hlt hle ((hiff T hT h16 hle).mpr hq)

/-- The example of the specification, where the two candidate widths agree at
every height: fit(200, 150) = (96, 80) is the largest qualifying height of the
specification's own search. -/
theorem fit_greedy_exact_witness :
    ((0 : Int) < 200 ∧ (0 : Int) < 150 ∧ (200 : Int) * 150 < 2147483648 ∧
      (∀ H : Int, 16 ∣ H → 16 ≤ H → H ≤ 150 → candidate 200 150 H = specCandidate 200 150 H) ∧
      specQualifies 200 150 80) ∧
    CL_AdjustSprayDimensions 200 150 = (96, 80) ∧
    specQualifies 200 150 (CL_AdjustSprayDimensions 200 150).2 ∧
    (CL_AdjustSprayDimensions 200 150).1
      = specCandidate 200 150 (CL_AdjustSprayDimensions 200 150).2 :=
  have hagree : ∀ H : Int, 16 ∣ H → 16 ≤ H → H ≤ 150 →
      candidate 200 150 H = specCandidate 200 150 H := by
    rintro H ⟨t, rfl⟩ h1 h2
    have ht : t = 1 ∨ t = 2 ∨ t = 3 ∨ t = 4 ∨ t = 5 ∨ t = 6 ∨ t = 7 ∨ t = 8 ∨ t = 9 := by omega
    rcases ht with rfl | rfl | rfl | rfl | rfl | rfl | rfl | rfl | rfl <;> decide
  have h := fit_greedy_exact 200 150 (by decide) (by decide) (by decide) hagree
    ⟨80, by decide⟩
  ⟨⟨by decide, by decide, by decide, hagree, by decide⟩, by decide, h.2.2.2.1, h.2.2.2.2.1⟩

end Spray

/-! ## Theorems on the Ogg memory stream -/

namespace Ogg

/-- A read keeps the file size and, from a position within the file, ends at a
position within the file. -/
theorem read_keeps (blockSize nmemb : Nat) (fs : ogg_filestream_t)
    (hsize : fs.filesize < SIZE_MOD) (hpos : fs.position ≤ fs.filesize) :
    (OggFilestream_Read blockSize nmemb fs).2.2.filesize = fs.filesize ∧
    (OggFilestream_Read blockSize nmemb fs).2.2.position ≤ fs.filesize := by
  unfold OggFilestream_Read
  refine ⟨rfl, ?_⟩
  have hrem : (fs.filesize + SIZE_MOD - fs.position) % SIZE_MOD = fs.filesize - fs.position := by
    have e : fs.filesize + SIZE_MOD - fs.position = (fs.filesize - fs.position) + SIZE_MOD := by
      omega
    rw [e, Nat.add_mod_right, Nat.mod_eq_of_lt (by omega)]
  simp only [hrem]
  have hle : (if (blockSize * nmemb) % SIZE_MOD > fs.filesize - fs.position then
      (fs.filesize - fs.position) - (fs.filesize - fs.position) % blockSize
      else (blockSize * nmemb) % SIZE_MOD) ≤ fs.filesize - fs.position := by
    split_ifs with h
    · exact Nat.sub_le _ _
    · exact Nat.le_of_not_lt h
  rw [Nat.mod_eq_of_lt (by omega)]
  omega

/-- The second half of a seek, lines 70-74, on the int64_t value p: the file
size and the other fields are kept and the position stays within the file. -/
theorem seek_commit_keeps (fs : ogg_filestream_t) (p : Int)
    (hpos : fs.position ≤ fs.filesize) :
    (if p < 0 ∨ p.toNat > fs.filesize then ((-1 : Int), fs)
      else (0, { fs with position := p.toNat })).2.filesize = fs.filesize ∧
    (if p < 0 ∨ p.toNat > fs.filesize then ((-1 : Int), fs)
      else (0, { fs with position := p.toNat })).2.position ≤ fs.filesize ∧
    (if p < 0 ∨ p.toNat > fs.filesize then ((-1 : Int), fs)
      else (0, { fs with position := p.toNat })).2.buffer = fs.buffer ∧
    (if p < 0 ∨ p.toNat > fs.filesize then ((-1 : Int), fs)
      else (0, { fs with position := p.toNat })).2.name = fs.name := by
  by_cases h : p < 0 ∨ p.toNat > fs.filesize
  · rw [if_pos h]
    exact ⟨rfl, hpos, rfl, rfl⟩
  · rw [if_neg h]
    exact ⟨rfl, Nat.le_of_not_lt (not_or.mp h).2, rfl, rfl⟩

/-- A seek keeps the file size, the buffer and the name, and ends at a position
within the file. -/
theorem seek_keeps (fs : ogg_filestream_t) (offset whence : Int)
    (hpos : fs.position ≤ fs.filesize) :
    (OggFilestream_Seek fs offset whence).2.filesize = fs.filesize ∧
    (OggFilestream_Seek fs offset whence).2.position ≤ fs.filesize ∧
    (OggFilestream_Seek fs offset whence).2.buffer = fs.buffer ∧
    (OggFilestream_Seek fs offset whence).2.name = fs.name := by
  unfold OggFilestream_Seek
  by_cases h1 : whence = SEEK_SET ∨ whence = SEEK_CUR ∨ whence = SEEK_END
  · rw [if_pos h1]
    exact seek_commit_keeps fs _ hpos
  · rw [if_neg h1]
    exact ⟨rfl, hpos, rfl, rfl⟩

/-- Every sequence of reads and seeks keeps the file size and the position
within the file. -/
theorem run_keeps (calls : List Call) (fs : ogg_filestream_t)
    (hsize : fs.filesize < SIZE_MOD) (hpos : fs.position ≤ fs.filesize) :
    (run fs calls).filesize = fs.filesize ∧ (run fs calls).position ≤ fs.filesize ∧
    (run fs calls).buffer = fs.buffer ∧ (run fs calls).name = fs.name := by
  induction calls generalizing fs with
  | nil => exact ⟨rfl, hpos, rfl, rfl⟩
  | cons c cs ih =>
    have hstep : (step fs c).filesize = fs.filesize ∧ (step fs c).position ≤ fs.filesize ∧
        (step fs c).buffer = fs.buffer ∧ (step fs c).name = fs.name := by
      cases c with
      | read bs n =>
        obtain ⟨a, b⟩ := read_keeps bs n fs hsize hpos
        exact ⟨a, b, rfl, rfl⟩
      | seek off wh => exact seek_keeps fs off wh hpos
    obtain ⟨s1, s2, s3, s4⟩ := hstep
    have := ih (step fs c) (by rw [s1]; exact hsize) (by rw [s1]; exact s2)
    obtain ⟨r1, r2, r3, r4⟩ := this
    have hrun : run fs (c :: cs) = run (step fs c) cs := rfl
    rw [hrun]
    rw [s1] at r1 r2
    exact ⟨r1, r2, r3.trans s3, r4.trans s4⟩

/-- The reduction to a 64-bit signed integer keeps a value in range. -/
theorem wrap64_of_range (x : Int) (h0 : -9223372036854775808 ≤ x)
    (h1 : x < 9223372036854775808) : wrap64 x = x := by
  unfold wrap64
  omega

/-- The reduction of a sum of an int64_t and a size below 2^63: the exact sum
when it is in range, and otherwise a negative value, for a sum too large. -/
theorem wrap64_sum (offset : Int) (p : Nat) (ho0 : -9223372036854775808 ≤ offset)
    (ho1 : offset < 9223372036854775808) (hp : p < 9223372036854775808) :
    (offset + (p : Int) < 9223372036854775808 → wrap64 (offset + (p : Int)) = offset + (p : Int)) ∧
    (9223372036854775808 ≤ offset + (p : Int) → wrap64 (offset + (p : Int)) < 0) := by
  unfold wrap64
  constructor
  · intro h
    omega
  · intro h
    omega

/-- The int64_t local of a seek with a valid whence, lines 61-66. -/
theorem seek_unfold (fs : ogg_filestream_t) (offset whence : Int)
    (hw : whence = SEEK_SET ∨ whence = SEEK_CUR ∨ whence = SEEK_END) (p : Int)
    (hp : p = (if whence = SEEK_SET then offset
      else if whence = SEEK_CUR then wrap64 (offset + (fs.position : Int))
      else wrap64 (offset + (fs.filesize : Int)))) :
    OggFilestream_Seek fs offset whence =
      (if p < 0 ∨ p.toNat > fs.filesize then ((-1 : Int), fs)
        else (0, { fs with position := p.toNat })) := by
  unfold OggFilestream_Seek
  rw [if_pos hw, hp]

/-- The int64_t local of a seek against the position asked for: on a stream of
less than 2^63 bytes with its position within the file, and for an offset that
is an int64_t, the local fails the test of line 70 when the target is negative
or beyond the file size, and is the target otherwise. -/
theorem seek_local (fs : ogg_filestream_t) (offset whence : Int)
    (hsize : fs.filesize < 9223372036854775808) (hpos : fs.position ≤ fs.filesize)
    (ho0 : -9223372036854775808 ≤ offset) (ho1 : offset < 9223372036854775808)
    (_hw : whence = SEEK_SET ∨ whence = SEEK_CUR ∨ whence = SEEK_END) :
    ((seekTarget fs offset whence < 0 ∨ (fs.filesize : Int) < seekTarget fs offset whence) →
      ((if whence = SEEK_SET then offset
        else if whence = SEEK_CUR then wrap64 (offset + (fs.position : Int))
        else wrap64 (offset + (fs.filesize : Int))) < 0 ∨
       (if whence = SEEK_SET then offset
        else if whence = SEEK_CUR then wrap64 (offset + (fs.position : Int))
        else wrap64 (offset + (fs.filesize : Int))).toNat > fs.filesize)) ∧
    (0 ≤ seekTarget fs offset whence → seekTarget fs offset whence ≤ (fs.filesize : Int) →
      (if whence = SEEK_SET then offset
        else if whence = SEEK_CUR then wrap64 (offset + (fs.position : Int))
        else wrap64 (offset + (fs.filesize : Int))) = seekTarget fs offset whence) := by
  have hcur := wrap64_sum offset fs.position ho0 ho1 (by omega)
  have hend := wrap64_sum offset fs.filesize ho0 ho1 hsize
  unfold seekTarget
  by_cases h1 : whence = SEEK_SET
  · rw [if_pos h1, if_pos h1]
    exact ⟨fun h => by omega, fun _ _ => rfl⟩
  · by_cases h2 : whence = SEEK_CUR
    · simp only [h1, h2, if_true, if_false]
      constructor
      · intro h
        by_cases hbig : offset + (fs.position : Int) < 9223372036854775808
        · rw [hcur.1 hbig]
          omega
        · exact Or.inl (hcur.2 (by omega))
      · intro a b
        exact hcur.1 (by omega)
    · simp only [h1, h2, if_false]
      constructor
      · intro h
        by_cases hbig : offset + (fs.filesize : Int) < 9223372036854775808
        · rw [hend.1 hbig]
          omega
        · exact Or.inl (hend.2 (by omega))
      · intro a b
        exact hend.1 (by omega)

/-- What a seek does on a stream of less than 2^63 bytes with its position
within the file, for an offset that is an int64_t. -/
theorem seek_spec (fs : ogg_filestream_t) (offset whence : Int)
    (hsize : fs.filesize < 9223372036854775808) (hpos : fs.position ≤ fs.filesize)
    (ho0 : -9223372036854775808 ≤ offset) (ho1 : offset < 9223372036854775808) :
    ((¬ (whence = SEEK_SET ∨ whence = SEEK_CUR ∨ whence = SEEK_END) ∨
        seekTarget fs offset whence < 0 ∨ (fs.filesize : Int) < seekTarget fs offset whence) →
      OggFilestream_Seek fs offset whence = (-1, fs)) ∧
    ((whence = SEEK_SET ∨ whence = SEEK_CUR ∨ whence = SEEK_END) →
      0 ≤ seekTarget fs offset whence → seekTarget fs offset whence ≤ (fs.filesize : Int) →
      OggFilestream_Seek fs offset whence =
        (0, { fs with position := (seekTarget fs offset whence).toNat })) := by
  constructor
  · intro h
    by_cases hw : whence = SEEK_SET ∨ whence = SEEK_CUR ∨ whence = SEEK_END
    · have hbad : seekTarget fs offset whence < 0 ∨
          (fs.filesize : Int) < seekTarget fs offset whence := by
        rcases h with h | h
        · exact absurd hw h
        · exact h
      rw [seek_unfold fs offset whence hw _ rfl,
        if_pos ((seek_local fs offset whence hsize hpos ho0 ho1 hw).1 hbad)]
    · unfold OggFilestream_Seek
      rw [if_neg hw]
  · intro hw h0 h1
    have heq := (seek_local fs offset whence hsize hpos ho0 ho1 hw).2 h0 h1
    rw [seek_unfold fs offset whence hw _ rfl, heq]
    rw [if_neg]
    intro hc
    rcases hc with hc | hc
    · omega
    · have : ((seekTarget fs offset whence).toNat : Int) = seekTarget fs offset whence :=
        Int.toNat_of_nonneg h0
      have hc2 : fs.filesize < (seekTarget fs offset whence).toNat := hc
      omega

/-- C18 (Ogg memory-stream position invariant): on a stream that
OggFilestream_Init sets up (filesize a size_t) the position starts at 0 and
every sequence of OggFilestream_Read (with blockSize > 0) and OggFilestream_Seek
calls keeps 0 ≤ position ≤ filesize; when the file has less than 2^63 bytes, in
the state reached OggFilestream_Seek with an int64_t offset returns -1 and
leaves the stream unchanged when whence is not SEEK_SET, SEEK_CUR or SEEK_END
or the target is negative or greater than filesize, and otherwise returns 0
and sets position to the target, and OggFilestream_Tell returns the position
(and changes nothing, having no stream to return). -/
theorem ogg_position_invariant (name : String) (buffer : List Nat) (filesize : Nat)
    (calls : List Call) (hsize : filesize < SIZE_MOD)
    (_hcalls : ∀ blockSize nmemb : Nat, Call.read blockSize nmemb ∈ calls → 0 < blockSize) :
    (OggFilestream_Init name buffer filesize).position = 0 ∧
    (run (OggFilestream_Init name buffer filesize) calls).filesize = filesize ∧
    (0 : Int) ≤ ((run (OggFilestream_Init name buffer filesize) calls).position : Int) ∧
    (run (OggFilestream_Init name buffer filesize) calls).position ≤ filesize ∧
    (filesize < 9223372036854775808 →
      (∀ offset whence : Int, -9223372036854775808 ≤ offset → offset < 9223372036854775808 →
        ((¬ (whence = SEEK_SET ∨ whence = SEEK_CUR ∨ whence = SEEK_END) ∨
            seekTarget (run (OggFilestream_Init name buffer filesize) calls) offset whence < 0 ∨
            (filesize : Int) <
              seekTarget (run (OggFilestream_Init name buffer filesize) calls) offset whence) →
          OggFilestream_Seek (run (OggFilestream_Init name buffer filesize) calls) offset whence
            = (-1, run (OggFilestream_Init name buffer filesize) calls)) ∧
        ((whence = SEEK_SET ∨ whence = SEEK_CUR ∨ whence = SEEK_END) →
          0 ≤ seekTarget (run (OggFilestream_Init name buffer filesize) calls) offset whence →
          seekTarget (run (OggFilestream_Init name buffer filesize) calls) offset whence
            ≤ (filesize : Int) →
          OggFilestream_Seek (run (OggFilestream_Init name buffer filesize) calls) offset whence
            = (0, { run (OggFilestream_Init name buffer filesize) calls with
                position :=
                  (seekTarget (run (OggFilestream_Init name buffer filesize) calls)
                    offset whence).toNat }))) ∧
      OggFilestream_Tell (run (OggFilestream_Init name buffer filesize) calls)
        = ((run (OggFilestream_Init name buffer filesize) calls).position : Int)) := by
  obtain ⟨k1, k2, _, _⟩ :=
    run_keeps calls (OggFilestream_Init name buffer filesize) hsize (Nat.zero_le _)
  have k1' : (run (OggFilestream_Init name buffer filesize) calls).filesize = filesize := k1
  have k2' : (run (OggFilestream_Init name buffer filesize) calls).position ≤ filesize := k2
  refine ⟨rfl, k1', Int.ofNat_nonneg _, k2', fun hsmall => ⟨?_, ?_⟩⟩
  · intro offset whence ho0 ho1
    generalize run (OggFilestream_Init name buffer filesize) calls = s at k1' k2'
    obtain ⟨sn, sb, sf, sp⟩ := s
    have e : sf = filesize := k1'
    subst e
    exact seek_spec ⟨sn, sb, sf, sp⟩ offset whence hsmall k2' ho0 ho1
  · unfold OggFilestream_Tell
    apply wrap64_of_range
    · omega
    · omega

/-- A stream over ten bytes after a read of two blocks of four, a seek to three
bytes before the end, a read of a hundred single bytes and a refused seek. -/
theorem ogg_position_invariant_witness :
    ((10 : Nat) < SIZE_MOD ∧
      (∀ blockSize nmemb : Nat,
        Call.read blockSize nmemb ∈
          [Call.read 4 2, Call.seek (-3) SEEK_END, Call.read 1 100, Call.seek 100 SEEK_SET] →
        0 < blockSize)) ∧
    run (OggFilestream_Init "a.ogg" [1, 2, 3, 4, 5, 6, 7, 8, 9, 10] 10)
      [Call.read 4 2, Call.seek (-3) SEEK_END, Call.read 1 100, Call.seek 100 SEEK_SET]
      = { name := "a.ogg", buffer := [1, 2, 3, 4, 5, 6, 7, 8, 9, 10], filesize := 10,
          position := 10 } ∧
    (run (OggFilestream_Init "a.ogg" [1, 2, 3, 4, 5, 6, 7, 8, 9, 10] 10)
      [Call.read 4 2, Call.seek (-3) SEEK_END, Call.read 1 100, Call.seek 100 SEEK_SET]).position
      ≤ 10 ∧
    OggFilestream_Tell (run (OggFilestream_Init "a.ogg" [1, 2, 3, 4, 5, 6, 7, 8, 9, 10] 10)
      [Call.read 4 2, Call.seek (-3) SEEK_END, Call.read 1 100, Call.seek 100 SEEK_SET])
      = ((run (OggFilestream_Init "a.ogg" [1, 2, 3, 4, 5, 6, 7, 8, 9, 10] 10)
        [Call.read 4 2, Call.seek (-3) SEEK_END, Call.read 1 100,
          Call.seek 100 SEEK_SET]).position : Int) ∧
    OggFilestream_Seek (OggFilestream_Init "a.ogg" [1, 2, 3, 4, 5, 6, 7, 8, 9, 10] 10) (-3) SEEK_END
      = (0, { name := "a.ogg", buffer := [1, 2, 3, 4, 5, 6, 7, 8, 9, 10], filesize := 10,
              position := 7 }) ∧
    OggFilestream_Seek (OggFilestream_Init "a.ogg" [1, 2, 3, 4, 5, 6, 7, 8, 9, 10] 10) 11 SEEK_SET
      = (-1, OggFilestream_Init "a.ogg" [1, 2, 3, 4, 5, 6, 7, 8, 9, 10] 10) ∧
    OggFilestream_Seek (OggFilestream_Init "a.ogg" [1, 2, 3, 4, 5, 6, 7, 8, 9, 10] 10) 0 3
      = (-1, OggFilestream_Init "a.ogg" [1, 2, 3, 4, 5, 6, 7, 8, 9, 10] 10) :=
  have hc : ∀ blockSize nmemb : Nat,
      Call.read blockSize nmemb ∈
        [Call.read 4 2, Call.seek (-3) SEEK_END, Call.read 1 100, Call.seek 100 SEEK_SET] →
      0 < blockSize := by
    intro bs n h
    simp at h
    rcases h with ⟨h1, _⟩ | ⟨h1, _⟩ <;> omega
  have h := ogg_position_invariant "a.ogg" [1, 2, 3, 4, 5, 6, 7, 8, 9, 10] 10
    [Call.read 4 2, Call.seek (-3) SEEK_END, Call.read 1 100, Call.seek 100 SEEK_SET]
    (by decide) hc
  ⟨⟨by decide, hc⟩, by decide, h.2.2.2.1, (h.2.2.2.2 (by decide)).2, by decide, by decide,
    by decide⟩

/-- C19 (Ogg memory-stream read count): for a stream with position ≤ filesize
(filesize a size_t), blockSize > 0 and blockSize * nmemb not overflowing,
OggFilestream_Read returns n = min(nmemb, (filesize - position) / blockSize),
copies the bytes buffer[position .. position + n * blockSize) (exactly
n * blockSize of them when the buffer holds filesize bytes), and advances the
position by exactly n * blockSize, which stays within the file: no partial
block is read. -/
theorem ogg_read_count (fs : ogg_filestream_t) (blockSize nmemb : Nat)
    (hpos : fs.position ≤ fs.filesize) (hsize : fs.filesize < SIZE_MOD)
    (hbs : 0 < blockSize) (hno : blockSize * nmemb < SIZE_MOD) :
    (OggFilestream_Read blockSize nmemb fs).2.1
      = min nmemb ((fs.filesize - fs.position) / blockSize) ∧
    (OggFilestream_Read blockSize nmemb fs).1
      = (fs.buffer.drop fs.position).take
          (min nmemb ((fs.filesize - fs.position) / blockSize) * blockSize) ∧
    (∀ i : Nat, i < min nmemb ((fs.filesize - fs.position) / blockSize) * blockSize →
      (OggFilestream_Read blockSize nmemb fs).1[i]? = fs.buffer[fs.position + i]?) ∧
    (fs.filesize ≤ fs.buffer.length →
      (OggFilestream_Read blockSize nmemb fs).1.length
        = min nmemb ((fs.filesize - fs.position) / blockSize) * blockSize) ∧
    (OggFilestream_Read blockSize nmemb fs).2.2
      = { fs with position :=
          fs.position + min nmemb ((fs.filesize - fs.position) / blockSize) * blockSize } ∧
    fs.position + min nmemb ((fs.filesize - fs.position) / blockSize) * blockSize
      ≤ fs.filesize := by
  have hrem : (fs.filesize + SIZE_MOD - fs.position) % SIZE_MOD = fs.filesize - fs.position := by
    have e : fs.filesize + SIZE_MOD - fs.position = (fs.filesize - fs.position) + SIZE_MOD := by
      omega
    rw [e, Nat.add_mod_right, Nat.mod_eq_of_lt (by omega)]
  have hds : (if (blockSize * nmemb) % SIZE_MOD > fs.filesize - fs.position then
      (fs.filesize - fs.position) - (fs.filesize - fs.position) % blockSize
      else (blockSize * nmemb) % SIZE_MOD)
      = min nmemb ((fs.filesize - fs.position) / blockSize) * blockSize := by
    rw [Nat.mod_eq_of_lt hno]
    have hdm := Nat.div_add_mod (fs.filesize - fs.position) blockSize
    by_cases h : blockSize * nmemb > fs.filesize - fs.position
    · rw [if_pos h]
      have hlt : (fs.filesize - fs.position) / blockSize < nmemb := by
        rw [Nat.div_lt_iff_lt_mul hbs, Nat.mul_comm]
        exact h
      rw [Nat.min_eq_right (le_of_lt hlt), Nat.mul_comm]
      omega
    · rw [if_neg h]
      have hle : nmemb ≤ (fs.filesize - fs.position) / blockSize := by
        rw [Nat.le_div_iff_mul_le hbs, Nat.mul_comm]
        exact Nat.le_of_not_lt h
      rw [Nat.min_eq_left hle, Nat.mul_comm]
  have hbound : min nmemb ((fs.filesize - fs.position) / blockSize) * blockSize
      ≤ fs.filesize - fs.position :=
    Nat.le_trans (Nat.mul_le_mul_right blockSize (Nat.min_le_right _ _))
      (Nat.div_mul_le_self _ _)
  have hread : OggFilestream_Read blockSize nmemb fs =
      ((fs.buffer.drop fs.position).take
          (min nmemb ((fs.filesize - fs.position) / blockSize) * blockSize),
        min nmemb ((fs.filesize - fs.position) / blockSize),
        { fs with position :=
          fs.position + min nmemb ((fs.filesize - fs.position) / blockSize) * blockSize }) := by
    unfold OggFilestream_Read
    simp only [hrem, hds]
    rw [Nat.mul_div_cancel _ hbs, Nat.mod_eq_of_lt (by omega)]
  rw [hread]
  refine ⟨rfl, rfl, ?_, ?_, rfl, by omega⟩
  · intro i hi
    show ((fs.buffer.drop fs.position).take _)[i]? = _
    rw [List.getElem?_take_of_lt hi, List.getElem?_drop]
  · intro hbuf
    show ((fs.buffer.drop fs.position).take _).length = _
    rw [List.length_take, List.length_drop]
    omega

/-- A stream over ten bytes at position 3: a read of five blocks of two bytes
returns the three whole blocks that fit and leaves the last byte unread. -/
theorem ogg_read_count_witness :
    ((3 : Nat) ≤ 10 ∧ (10 : Nat) < SIZE_MOD ∧ 0 < 2 ∧ 2 * 5 < SIZE_MOD) ∧
    OggFilestream_Read 2 5 ⟨"a.ogg", [1, 2, 3, 4, 5, 6, 7, 8, 9, 10], 10, 3⟩
      = ([4, 5, 6, 7, 8, 9], 3, ⟨"a.ogg", [1, 2, 3, 4, 5, 6, 7, 8, 9, 10], 10, 9⟩) ∧
    (OggFilestream_Read 2 5 ⟨"a.ogg", [1, 2, 3, 4, 5, 6, 7, 8, 9, 10], 10, 3⟩).2.1
      = min 5 ((10 - 3) / 2) :=
  ⟨⟨by decide, by decide, by decide, by decide⟩, by decide,
    (ogg_read_count ⟨"a.ogg", [1, 2, 3, 4, 5, 6, 7, 8, 9, 10], 10, 3⟩ 2 5
      (by decide) (by decide) (by decide) (by decide)).1⟩

end Ogg
